import Mathlib

/-!
Verification of the soccer-game simulation (TeamManager, Ball/Player physics,
GoalDetector, kickoff state machine, Q-learning agent) against its
natural-language specification.  Python floating-point arithmetic is modelled
by exact arithmetic (rationals where the code is pure arithmetic, reals where
square roots appear); wall-clock reads (time.time()) are modelled as explicit
time parameters, and Python string hashing as an explicit hash parameter.
-/

namespace Soccer

/-! ## Goal detector (game/rules/goal_detector.py)

The detector only does comparisons and additions on coordinates, so it is
embedded over the rationals.  Debug printing is omitted; the wall-clock value
time.time() recorded in a Goal is passed in as the parameter now. -/

structure Goal where
  scoringTeam : String
  timeScored : ℚ
  ballPosition : ℚ × ℚ
  scorerId : Option String
  deriving Repr, DecidableEq

structure GoalDetector where
  fieldLength : ℚ
  fieldWidth : ℚ
  goalWidth : ℚ
  homeScore : ℕ
  awayScore : ℕ
  goalsScored : List Goal
  goalJustScored : Bool
  celebrationTimer : ℚ
  celebrationDuration : ℚ
  lastGoal : Option Goal
  deriving Repr

/-- Construction defaults of GoalDetector.__init__ (engine passes the
FieldSettings defaults 105.0 x 68.0, goal width 7.32). -/
def GoalDetector.init : GoalDetector :=
  { fieldLength := 105
    fieldWidth := 68
    goalWidth := 732/100
    homeScore := 0
    awayScore := 0
    goalsScored := []
    goalJustScored := false
    celebrationTimer := 0
    celebrationDuration := 3
    lastGoal := none }

def GoalDetector.halfField (gd : GoalDetector) : ℚ := gd.fieldLength / 2

def GoalDetector.halfGoal (gd : GoalDetector) : ℚ := gd.goalWidth / 2

def GoalDetector.homeGoalLine (gd : GoalDetector) : ℚ := -gd.halfField

def GoalDetector.awayGoalLine (gd : GoalDetector) : ℚ := gd.halfField

/-- GoalDetector.check_goal: ball position is tested against goal-line
thresholds inset by 1.0 m and a half-goal-width + 0.5 m y-buffer; on a goal
the corresponding score is incremented, the Goal is appended and the
celebration state is armed.  The function takes no ball velocity. -/
def GoalDetector.checkGoal (gd : GoalDetector) (now ballX ballY : ℚ)
    (ballLastTouchedBy : Option String) : Option Goal × GoalDetector :=
  let goalWidthBuffer := gd.halfGoal + 1/2
  let res : Option Goal × GoalDetector :=
    if |ballY| ≤ goalWidthBuffer then
      let homeGoalThreshold := gd.homeGoalLine + 1
      let awayGoalThreshold := gd.awayGoalLine - 1
      if ballX ≤ homeGoalThreshold then
        (some { scoringTeam := "away", timeScored := now,
                ballPosition := (ballX, ballY), scorerId := ballLastTouchedBy },
         { gd with awayScore := gd.awayScore + 1 })
      else if ballX ≥ awayGoalThreshold then
        (some { scoringTeam := "home", timeScored := now,
                ballPosition := (ballX, ballY), scorerId := ballLastTouchedBy },
         { gd with homeScore := gd.homeScore + 1 })
      else (none, gd)
    else (none, gd)
  match res with
  | (some g, gd1) =>
      (some g, { gd1 with goalsScored := gd1.goalsScored ++ [g],
                          goalJustScored := true,
                          celebrationTimer := gd1.celebrationDuration,
                          lastGoal := some g })
  | (none, gd1) => (none, gd1)

/-! ## Q-learning agent (ai/agents/learning_agent.py)

QLearningAgent.learn_from_experience only touches q_table (and appends to the
replay memory / reward statistics, which never feed back into q_table), so the
embedding models the q_table update.  The Python q_table is a
defaultdict(lambda: defaultdict(float)): reading q_table[state][action]
materialises a 0.0 entry, and reading q_table[next_state] materialises an
empty inner dict; both creations are modelled explicitly.  Dicts are modelled
as insertion-ordered association lists. -/

abbrev ActionValues := List (String × ℚ)

abbrev QTable := List (String × ActionValues)

def lookupA {α : Type} : List (String × α) → String → Option α
  | [], _ => none
  | (k, v) :: rest, key => if k = key then some v else lookupA rest key

def setA {α : Type} : List (String × α) → String → α → List (String × α)
  | [], key, v => [(key, v)]
  | (k, w) :: rest, key, v =>
      if k = key then (key, v) :: rest else (k, w) :: setA rest key v

/-- QLearningAgent.__init__ default learning_rate = 0.1. -/
def learningRate : ℚ := 1/10

/-- QLearningAgent.__init__ default discount_factor = 0.95. -/
def discountFactor : ℚ := 19/20

/-- Value of q_table[s][a] with the defaultdict(float) default of 0.0. -/
def qLookup (t : QTable) (s a : String) : ℚ :=
  (lookupA ((lookupA t s).getD []) a).getD 0

/-- Reading q_table[s] on a defaultdict materialises an empty inner dict. -/
def ensureStateEntry (t : QTable) (s : String) : QTable :=
  match lookupA t s with
  | some _ => t
  | none => t ++ [(s, [])]

/-- Reading q_table[s][a] on nested defaultdicts materialises a 0.0 entry. -/
def ensureActionEntry (t : QTable) (s a : String) : QTable :=
  let t1 := ensureStateEntry t s
  let d := (lookupA t1 s).getD []
  match lookupA d a with
  | some _ => t1
  | none => setA t1 s (d ++ [(a, 0)])

/-- Python max(dict.values()) if the dict is nonempty, else the 0.0 fallback
used in learn_from_experience. -/
def maxOrZero (d : ActionValues) : ℚ :=
  match d.map Prod.snd with
  | [] => 0
  | v :: vs => vs.foldl max v

/-- QLearningAgent.learn_from_experience: the tabular update
Q(s,a) := Q(s,a) + alpha * (r + gamma * max(Q(ns,.)) - Q(s,a)), where the max
falls back to 0.0 when next_state has no recorded action values. -/
def learnFromExperience (t : QTable) (s a : String) (r : ℚ) (ns : String) :
    QTable :=
  let t1 := ensureActionEntry t s a
  let currentQ := qLookup t1 s a
  let t2 := ensureStateEntry t1 ns
  let nextStateValues := (lookupA t2 ns).getD []
  let maxNextQ := maxOrZero nextStateValues
  let newQ := currentQ + learningRate * (r + discountFactor * maxNextQ - currentQ)
  setA t2 s (setA ((lookupA t2 s).getD []) a newQ)

/-- Repeatedly feeding the same (state, action, reward, next_state) tuple. -/
def qIterate (s a : String) (r : ℚ) (ns : String) : ℕ → QTable → QTable
  | 0, t => t
  | n + 1, t => qIterate s a r ns n (learnFromExperience t s a r ns)

/-! ## Formation (game/team/team_manager.py, class Formation)

Formation positions are a dict from role name to an ordered list of (x, y)
pairs; coordinates live in the same numeric field as the physics. -/

structure Formation where
  name : String
  positions : List (String × List (ℝ × ℝ))

/-- Formation.get_positions_for_team: the home side gets the stored positions,
any other team name gets both coordinates negated, role by role. -/
noncomputable def Formation.getPositionsForTeam (f : Formation) (team : String) :
    List (String × List (ℝ × ℝ)) :=
  if team = "home" then f.positions
  else f.positions.map (fun rp => (rp.1, rp.2.map (fun xy => (-xy.1, -xy.2))))

/-! ## Ball physics (src/entities/ball.py)

Positions and velocities are reals; Python float arithmetic is modelled as
exact real arithmetic.  Rendering is omitted.  Comparisons on reals use the
classical decidability instances. -/

structure FieldBounds where
  minX : ℝ
  maxX : ℝ
  minY : ℝ
  maxY : ℝ

/-- FieldRenderer.get_field_bounds with the default 105.0 x 68.0 field:
(-52.5, 52.5, -34.0, 34.0). -/
noncomputable def stdBounds : FieldBounds :=
  { minX := -105/2, maxX := 105/2, minY := -34, maxY := 34 }

structure Ball where
  x : ℝ
  y : ℝ
  velocityX : ℝ
  velocityY : ℝ
  isMoving : Bool
  lastTouchedBy : Option String

/-- Ball.__init__ radius constant (0.11 m). -/
noncomputable def ballRadius : ℝ := 11/100

/-- Ball.__init__ mass constant (0.43 kg). -/
noncomputable def ballMass : ℝ := 43/100

/-- Ball.__init__ friction coefficient (0.7). -/
noncomputable def ballFriction : ℝ := 7/10

/-- Ball.__init__ bounce factor (0.6). -/
noncomputable def ballBounce : ℝ := 3/5

/-- Ball.get_speed. -/
noncomputable def Ball.speed (b : Ball) : ℝ :=
  Real.sqrt (b.velocityX ^ 2 + b.velocityY ^ 2)

open scoped Classical in
/-- Friction stage of Ball.update: above the 0.1 m/s threshold the speed is
reduced by min(friction * dt, speed) by uniform scaling of both components;
at or below the threshold the velocity snaps to exactly zero. -/
noncomputable def Ball.applyFriction (b : Ball) (dt : ℝ) : Ball :=
  let speed := b.speed
  if speed > 1/10 then
    let frictionForce := ballFriction * dt
    let speedReduction := min frictionForce speed
    let velocityFactor := (speed - speedReduction) / speed
    { b with velocityX := b.velocityX * velocityFactor,
             velocityY := b.velocityY * velocityFactor,
             isMoving := true }
  else
    { b with velocityX := 0, velocityY := 0, isMoving := false }

/-- Position integration stage of Ball.update. -/
noncomputable def Ball.integrate (b : Ball) (dt : ℝ) : Ball :=
  { b with x := b.x + b.velocityX * dt, y := b.y + b.velocityY * dt }

open scoped Classical in
/-- Boundary stage of Ball.update: clamp to the boundary minus radius and
negate-and-scale the matching velocity component by the bounce factor. -/
noncomputable def Ball.boundaries (b : Ball) (fb : FieldBounds) : Ball :=
  let b1 :=
    if b.x - ballRadius < fb.minX then
      { b with x := fb.minX + ballRadius, velocityX := -b.velocityX * ballBounce }
    else if b.x + ballRadius > fb.maxX then
      { b with x := fb.maxX - ballRadius, velocityX := -b.velocityX * ballBounce }
    else b
  if b1.y - ballRadius < fb.minY then
    { b1 with y := fb.minY + ballRadius, velocityY := -b1.velocityY * ballBounce }
  else if b1.y + ballRadius > fb.maxY then
    { b1 with y := fb.maxY - ballRadius, velocityY := -b1.velocityY * ballBounce }
  else b1

/-- Ball.update: friction, then position integration, then boundary clamping
with bounce, in source order. -/
noncomputable def Ball.update (b : Ball) (dt : ℝ) (fb : FieldBounds) : Ball :=
  ((b.applyFriction dt).integrate dt).boundaries fb

open scoped Classical in
/-- Ball.kick: impulse velocity += force / mass, then the speed is clamped to
30 m/s by uniform scaling of both components; records last_touched_by. -/
noncomputable def Ball.kick (b : Ball) (forceX forceY : ℝ)
    (kickerId : Option String) : Ball :=
  let vX := b.velocityX + forceX / ballMass
  let vY := b.velocityY + forceY / ballMass
  let maxVelocity : ℝ := 30
  let currentSpeed := Real.sqrt (vX ^ 2 + vY ^ 2)
  let v2 : ℝ × ℝ :=
    if currentSpeed > maxVelocity then
      let scale := maxVelocity / currentSpeed
      (vX * scale, vY * scale)
    else (vX, vY)
  { b with velocityX := v2.1, velocityY := v2.2,
           lastTouchedBy := kickerId, isMoving := true }

/-- Folding Ball.update over a list of tick deltas (no kicks in between). -/
noncomputable def Ball.updates (b : Ball) (fb : FieldBounds) : List ℝ → Ball
  | [] => b
  | dt :: rest => (b.update dt fb).updates fb rest

/-- Ball trajectory under a stream of tick deltas, n ticks from b. -/
noncomputable def Ball.trajFrom (b : Ball) (fb : FieldBounds) (d : ℕ → ℝ) :
    ℕ → Ball
  | 0 => b
  | n + 1 => ((b.trajFrom fb d n).update (d n) fb)

/-- Concrete dt sequence 1/2, 1/4, 1/8, ... used to refute the claimed
tick-count bound of C6. -/
noncomputable def cexDts (n : ℕ) : ℝ := (1/2) ^ (n + 1)

/-- Concrete ball moving along the x axis at 5 m/s from the centre spot. -/
noncomputable def cexBall : Ball :=
  { x := 0, y := 0, velocityX := 5, velocityY := 0,
    isMoving := true, lastTouchedBy := none }

/-! ## Player (src/entities/player.py)

Rendering, team colors, tackling (randomized, unused by the team tick) and
human input are omitted; everything the team coordinator calls is embedded.
The radius, acceleration and deceleration constants come from
Player.__init__; max_speed is the role table of _get_max_speed_for_role. -/

inductive PlayerRole where
  | goalkeeper
  | defender
  | midfielder
  | forward
  deriving DecidableEq, Repr

/-- PlayerRole.value strings used as dict keys in formations. -/
def PlayerRole.value : PlayerRole → String
  | .goalkeeper => "goalkeeper"
  | .defender => "defender"
  | .midfielder => "midfielder"
  | .forward => "forward"

structure Player where
  playerId : String
  team : String
  role : PlayerRole
  x : ℝ
  y : ℝ
  velocityX : ℝ
  velocityY : ℝ
  facingAngle : ℝ
  energy : ℝ
  targetX : ℝ
  targetY : ℝ
  action : String

/-- Player.__init__ radius constant (0.4 m). -/
noncomputable def playerRadius : ℝ := 2/5

/-- Player.__init__ acceleration constant (8 m/s^2). -/
noncomputable def playerAcceleration : ℝ := 8

/-- Player.__init__ deceleration constant (12 m/s^2). -/
noncomputable def playerDeceleration : ℝ := 12

/-- Player._get_max_speed_for_role. -/
noncomputable def Player.maxSpeed (p : Player) : ℝ :=
  match p.role with
  | .goalkeeper => 6
  | .defender => 7
  | .midfielder => 17/2
  | .forward => 9

open scoped Classical in
/-- Python math.atan2 on reals (used only for the facing angle). -/
noncomputable def atan2 (yv xv : ℝ) : ℝ :=
  if xv > 0 then Real.arctan (yv / xv)
  else if xv < 0 then
    (if yv ≥ 0 then Real.arctan (yv / xv) + Real.pi
     else Real.arctan (yv / xv) - Real.pi)
  else
    (if yv > 0 then Real.pi / 2
     else if yv < 0 then -(Real.pi / 2)
     else 0)

open scoped Classical in
/-- Player.update: energy recovery/consumption, position integration, clamp
into bounds, facing update above the jitter threshold. -/
noncomputable def Player.update (p : Player) (dt : ℝ) (fb : FieldBounds) :
    Player :=
  let speed := Real.sqrt (p.velocityX ^ 2 + p.velocityY ^ 2)
  let energy1 :=
    if speed < 2 then min 100 (p.energy + 20 * dt)
    else max 0 (p.energy - speed * 2 * dt)
  let x1 := p.x + p.velocityX * dt
  let y1 := p.y + p.velocityY * dt
  let x2 := max (fb.minX + playerRadius) (min (fb.maxX - playerRadius) x1)
  let y2 := max (fb.minY + playerRadius) (min (fb.maxY - playerRadius) y1)
  let facing1 :=
    if |p.velocityX| > 1/10 ∨ |p.velocityY| > 1/10 then
      atan2 p.velocityY p.velocityX
    else p.facingAngle
  { p with x := x2, y := y2, energy := energy1, facingAngle := facing1 }

open scoped Classical in
/-- Player.move_towards_target: arrival steering toward the target with fixed
acceleration and deceleration, with a 0.5 m deadband. -/
noncomputable def Player.moveTowardsTarget (p : Player) (dt : ℝ) : Player :=
  let dx := p.targetX - p.x
  let dy := p.targetY - p.y
  let distanceSquared := dx ^ 2 + dy ^ 2
  if distanceSquared > 1/4 then
    let distance := Real.sqrt distanceSquared
    let directionX := dx / distance
    let directionY := dy / distance
    let energyFactor := max (3/10) (p.energy / 100)
    let desiredSpeed := min (p.maxSpeed * energyFactor) (distance * 2)
    let desiredVelocityX := directionX * desiredSpeed
    let desiredVelocityY := directionY * desiredSpeed
    let acceleration := playerAcceleration * dt
    let velDiffX := desiredVelocityX - p.velocityX
    let velDiffY := desiredVelocityY - p.velocityY
    let newVX :=
      if |velDiffX| > acceleration then
        p.velocityX + acceleration * (if velDiffX > 0 then 1 else -1)
      else desiredVelocityX
    let newVY :=
      if |velDiffY| > acceleration then
        p.velocityY + acceleration * (if velDiffY > 0 then 1 else -1)
      else desiredVelocityY
    { p with velocityX := newVX, velocityY := newVY }
  else
    let deceleration := playerDeceleration * dt
    let newVX :=
      if |p.velocityX| > deceleration then
        p.velocityX - deceleration * (if p.velocityX > 0 then 1 else -1)
      else 0
    let newVY :=
      if |p.velocityY| > deceleration then
        p.velocityY - deceleration * (if p.velocityY > 0 then 1 else -1)
      else 0
    { p with velocityX := newVX, velocityY := newVY }

/-- Player.set_target. -/
noncomputable def Player.setTarget (p : Player) (tx ty : ℝ) : Player :=
  { p with targetX := tx, targetY := ty, action := "moving" }

/-- Player.get_distance_to_ball. -/
noncomputable def Player.distToBall (p : Player) (b : Ball) : ℝ :=
  Real.sqrt ((b.x - p.x) ^ 2 + (b.y - p.y) ^ 2)

/-- Player.get_distance_to_ball_pos. -/
noncomputable def Player.distToBallPos (p : Player) (bx byy : ℝ) : ℝ :=
  Real.sqrt ((bx - p.x) ^ 2 + (byy - p.y) ^ 2)

open scoped Classical in
/-- Player.kick_ball: range check, direction toward the target (facing
direction when no target), normalization, force 15 * power * max(0.3,
energy/100), the ball kick, energy cost, action tag; returns success. -/
noncomputable def Player.kickBall (p : Player) (ball : Ball)
    (target : Option (ℝ × ℝ)) (power : ℝ) : Player × Ball × Bool :=
  let ballX := ball.x
  let ballY := ball.y
  let distanceToBall := Real.sqrt ((ballX - p.x) ^ 2 + (ballY - p.y) ^ 2)
  if distanceToBall ≤ playerRadius + ballRadius + 1/2 then
    let dir : ℝ × ℝ :=
      match target with
      | some (tx, ty) => (tx - ballX, ty - ballY)
      | none => (Real.cos p.facingAngle, Real.sin p.facingAngle)
    let kickMagnitude := Real.sqrt (dir.1 ^ 2 + dir.2 ^ 2)
    let ndir : ℝ × ℝ :=
      if kickMagnitude > 0 then (dir.1 / kickMagnitude, dir.2 / kickMagnitude)
      else dir
    let maxKickForce : ℝ := 15
    let energyFactor := max (3/10) (p.energy / 100)
    let kickForce := maxKickForce * power * energyFactor
    let ball2 := ball.kick (ndir.1 * kickForce) (ndir.2 * kickForce)
      (some p.playerId)
    ({ p with energy := max 0 (p.energy - 5 * power), action := "kicking" },
     ball2, true)
  else (p, ball, false)

/-- Degenerate bounds rectangle used to refute C8's universal quantification
over rectangles: only 0.5 m wide in x, narrower than a player diameter. -/
noncomputable def cexBoundsC8 : FieldBounds :=
  { minX := 0, maxX := 1/2, minY := -34, maxY := 34 }

/-- Concrete player at the origin at rest, for the C8 counterexample. -/
noncomputable def cexPlayerC8 : Player :=
  { playerId := "H1", team := "home", role := .defender, x := 0, y := 0,
    velocityX := 0, velocityY := 0, facingAngle := 0, energy := 100,
    targetX := 0, targetY := 0, action := "idle" }

/-! ## Team coordinator (game/team/team_manager.py, class TeamManager)

TeamManager state relevant to the claims: roster, formation, possession
flag, ball-carrier, retrieval cooldown bookkeeping.  Wall-clock time.time()
reads are passed in as currentTime; Python string hash (used for the forward
shot offset) is passed in as hashFn.  Debug printing is omitted. -/

structure KickoffInfo where
  active : Bool
  team : Option String
  timer : ℝ
  state : String

structure TeamState where
  teamName : String
  players : List Player
  formation : Formation
  inPossession : Bool
  ballCarrier : Option Player
  lastRetrievalTime : ℝ
  retrievalCooldown : ℝ

/-- The 4-4-2 formation of FormationManager._create_standard_formations. -/
noncomputable def formation442 : Formation :=
  { name := "4-4-2"
    positions :=
      [("goalkeeper", [(-45, 0)]),
       ("defender", [(-35, -15), (-35, -5), (-35, 5), (-35, 15)]),
       ("midfielder", [(-15, -18), (-15, -6), (-15, 6), (-15, 18)]),
       ("forward", [(-5, -8), (-5, 8)])] }

/-- Player fields as set by Player.__init__ at position (px, py). -/
noncomputable def mkPlayer (pid team : String) (role : PlayerRole) (px py : ℝ) :
    Player :=
  { playerId := pid, team := team, role := role, x := px, y := py,
    velocityX := 0, velocityY := 0, facingAngle := 0, energy := 100,
    targetX := px, targetY := py, action := "idle" }

/-- TeamManager fields relevant to the claims, as set by __init__ (possession
cleared, retrieval cooldown RETRIEVAL_COOLDOWN = 2.0). -/
noncomputable def mkTeamState (name : String) (ps : List Player) : TeamState :=
  { teamName := name, players := ps, formation := formation442,
    inPossession := false, ballCarrier := none,
    lastRetrievalTime := 0, retrievalCooldown := 2 }

open scoped Classical in
/-- The closest-player loop shared by _update_possession_status and
_check_ball_retrieval_needed: running (closest_distance, closest_player,
closest_is_ours) state, updated on strictly smaller distance; the mine flag
records which roster the candidate came from (Python checks membership /
sets closest_is_ours).  The initial none stands for (inf, None). -/
noncomputable def scanClosest (mine : Bool) (ball : Ball) :
    List Player → Option (ℝ × Player × Bool) → Option (ℝ × Player × Bool)
  | [], best => best
  | p :: rest, best =>
      let d := p.distToBall ball
      let best2 :=
        match best with
        | none => some (d, p, mine)
        | some (bd, bp, bm) =>
            if d < bd then some (d, p, mine) else some (bd, bp, bm)
      scanClosest mine ball rest best2

open scoped Classical in
/-- TeamManager._update_possession_status: scan own players then opponents;
possession and ball-carrier go to the closest player's team if the closest
distance is below 2.0 m, else both are cleared. -/
noncomputable def updatePossessionStatus (ts : TeamState) (ball : Ball)
    (opponentPlayers : List Player) : TeamState :=
  match scanClosest false ball opponentPlayers
      (scanClosest true ball ts.players none) with
  | some (bd, bp, bm) =>
      if bd < 2 then
        if bm then { ts with inPossession := true, ballCarrier := some bp }
        else { ts with inPossession := false, ballCarrier := none }
      else { ts with inPossession := false, ballCarrier := none }
  | none => { ts with inPossession := false, ballCarrier := none }

open scoped Classical in
/-- TeamManager._check_ball_retrieval_needed: cooldown gate (2 x the 2.0 s
cooldown), moving-ball gate, closest-team gate, then the conservative
stuck-ball conditions with near_edge := abs(x) > 45 or abs(y) > 30; on
trigger the last retrieval time is set. -/
noncomputable def checkBallRetrievalNeeded (ts : TeamState) (ball : Ball)
    (opponentPlayers : List Player) (currentTime : ℝ) : Bool × TeamState :=
  if currentTime - ts.lastRetrievalTime < ts.retrievalCooldown * 2 then
    (false, ts)
  else if ball.speed > 1 then (false, ts)
  else
    match scanClosest false ball opponentPlayers
        (scanClosest true ball ts.players none) with
    | none => (false, ts)
    | some (closestDistance, _, closestIsOurs) =>
        if closestIsOurs then
          let nearEdge := |ball.x| > 45 ∨ |ball.y| > 30
          let needsRetrieval := (closestDistance > 12 ∧ ball.speed < 1/10)
            ∨ (nearEdge ∧ closestDistance > 8 ∧ ball.speed < 1/2)
          if needsRetrieval then
            (true, { ts with lastRetrievalTime := currentTime })
          else (false, ts)
        else (false, ts)

/-- Minimum distance from a roster to the ball (meaningful for nonempty
rosters); used to state the possession/retrieval characterizations. -/
noncomputable def minDistD (ps : List Player) (ball : Ball) : ℝ :=
  match ps with
  | [] => 0
  | p :: rest => rest.foldl (fun acc q => min acc (q.distToBall ball)) (p.distToBall ball)

/-- Running minimum of roster distances from a given initial value. -/
noncomputable def minFrom (ball : Ball) (l : List Player) (init : ℝ) : ℝ :=
  l.foldl (fun acc q => min acc (q.distToBall ball)) init

/-- Ball within 5 m of a boundary edge of the 105 x 68 field, read literally
from the spec sentence of C2 (for comparison with the code's thresholds). -/
def nearBoundary5 (bx byy : ℝ) : Prop :=
  105/2 - |bx| ≤ 5 ∨ 34 - |byy| ≤ 5

/-- The stuck-ball predicate exactly as claim C2 states it (edge clause read
as distance-to-boundary at most 5 m). -/
noncomputable def claimRetrievalSpec (ts : TeamState) (ball : Ball)
    (opponentPlayers : List Player) (currentTime : ℝ) : Prop :=
  4 ≤ currentTime - ts.lastRetrievalTime
  ∧ minDistD ts.players ball ≤ minDistD opponentPlayers ball
  ∧ ball.speed < 1
  ∧ ((12 < minDistD ts.players ball ∧ ball.speed < 1/10)
     ∨ (nearBoundary5 ball.x ball.y ∧ 8 < minDistD ts.players ball
        ∧ ball.speed < 1/2))

open scoped Classical in
/-- The retrieval-block loop of update_formation_positions: first strict
argmin over non-goalkeeper players, tracked by roster index. -/
noncomputable def scanNonGK (bx byy : ℝ) :
    List Player → ℕ → Option (ℕ × ℝ) → Option (ℕ × ℝ)
  | [], _, best => best
  | p :: rest, i, best =>
      let best2 :=
        if p.role ≠ PlayerRole.goalkeeper then
          match best with
          | none => some (i, p.distToBallPos bx byy)
          | some (bj, bd) =>
              if p.distToBallPos bx byy < bd then some (i, p.distToBallPos bx byy)
              else some (bj, bd)
        else best
      scanNonGK bx byy rest (i + 1) best2

/-- Index of the closest non-goalkeeper player (none if all goalkeepers). -/
noncomputable def firstArgminNonGKIdx (ps : List Player) (bx byy : ℝ) :
    Option ℕ :=
  (scanNonGK bx byy ps 0 none).map Prod.fst

open scoped Classical in
/-- The min(...) key of the skip check inside update_formation_positions:
distance for outfield players, float(inf) — modelled as none — for the
goalkeeper. -/
noncomputable def pyKey (p : Player) (bx byy : ℝ) : Option ℝ :=
  if p.role ≠ PlayerRole.goalkeeper then some (p.distToBallPos bx byy) else none

/-- Comparison on keys where none plays float(inf). -/
def keyLt : Option ℝ → Option ℝ → Prop
  | some a, some b => a < b
  | some _, none => True
  | none, _ => False

open scoped Classical in
/-- Python min over the roster by pyKey (first minimal element wins). -/
noncomputable def scanPyMin (bx byy : ℝ) :
    List Player → ℕ → ℕ × Option ℝ → ℕ × Option ℝ
  | [], _, best => best
  | p :: rest, i, best =>
      let k := pyKey p bx byy
      let best2 := if keyLt k best.2 then (i, k) else best
      scanPyMin bx byy rest (i + 1) best2

/-- Index selected by min(self.players, key=...) in the skip check. -/
noncomputable def pyMinByKeyIdx (ps : List Player) (bx byy : ℝ) : Option ℕ :=
  match ps with
  | [] => none
  | p :: rest => some (scanPyMin bx byy rest 1 (0, pyKey p bx byy)).1

/-- Python same_role_players.index(player): the number of same-role players
strictly before roster index i (list identity semantics). -/
noncomputable def countRoleBefore (ps : List Player) (i : ℕ) (role : String) :
    ℕ :=
  ((ps.take i).filter (fun q => q.role.value = role)).length

/-- Index-aware map used to model the in-place player loops. -/
def mapIdxFrom {α β : Type} (f : ℕ → α → β) : ℕ → List α → List β
  | _, [] => []
  | i, a :: rest => f i a :: mapIdxFrom f (i + 1) rest

open scoped Classical in
/-- TeamManager.update_formation_positions: on retrieval the closest
non-goalkeeper is sent to the ball; every player with a formation slot then
gets a target — the retriever is skipped, outfield players get the
chase/hold blend clamped to the +-50 x +-30 safety rectangle, the goalkeeper
tracks the ball laterally along its goal line. -/
noncomputable def updateFormationPositions (ts : TeamState) (bx byy : ℝ)
    (ballNeedsRetrieval : Bool) : TeamState :=
  if ts.players = [] then ts
  else
    let basePositions := ts.formation.getPositionsForTeam ts.teamName
    let players1 :=
      if ballNeedsRetrieval then
        match firstArgminNonGKIdx ts.players bx byy with
        | some j =>
            mapIdxFrom (fun i p => if i = j then p.setTarget bx byy else p) 0
              ts.players
        | none => ts.players
      else ts.players
    let skipIdx := pyMinByKeyIdx ts.players bx byy
    let players2 := mapIdxFrom (fun i p =>
      match lookupA basePositions p.role.value with
      | none => p
      | some rolePositions =>
          match rolePositions.get? (countRoleBefore ts.players i p.role.value) with
          | none => p
          | some basePos =>
              if ballNeedsRetrieval = true ∧ skipIdx = some i then p
              else if p.role.value ≠ "goalkeeper" then
                let ballDistance :=
                  Real.sqrt ((bx - basePos.1) ^ 2 + (byy - basePos.2) ^ 2)
                let shouldChaseBall := (¬ ballNeedsRetrieval = true)
                  ∧ ballDistance < 15
                  ∧ (ts.inPossession = true
                     ∨ (¬ ts.inPossession = true ∧ ballDistance < 8))
                let target : ℝ × ℝ :=
                  if shouldChaseBall then
                    (basePos.1 * (2/10) + bx * (8/10),
                     basePos.2 * (2/10) + byy * (8/10))
                  else
                    (basePos.1 * (9/10) + bx * (1/10),
                     basePos.2 * (9/10) + byy * (1/10))
                let targetX := max (-50) (min 50 target.1)
                let targetY := max (-30) (min 30 target.2)
                p.setTarget targetX targetY
              else
                p.setTarget basePos.1 (max (-8) (min 8 (byy * (5/10))))) 0 players1
    { ts with players := players2 }

/-- Target that claim C2 says every non-retrieving player keeps, per the
formation-hold branch of update_formation_positions: the 0.9 base + 0.1 ball
awareness blend clamped to the safety rectangle for outfield players with a
slot, the goal-line target for the goalkeeper, the previous target when the
role has no slot. -/
noncomputable def holdFormationTarget (ts : TeamState) (bx byy : ℝ) (i : ℕ)
    (p : Player) : ℝ × ℝ :=
  match lookupA (ts.formation.getPositionsForTeam ts.teamName) p.role.value with
  | none => (p.targetX, p.targetY)
  | some rolePositions =>
      match rolePositions.get? (countRoleBefore ts.players i p.role.value) with
      | none => (p.targetX, p.targetY)
      | some basePos =>
          if p.role.value ≠ "goalkeeper" then
            (max (-50) (min 50 (basePos.1 * (9/10) + bx * (1/10))),
             max (-30) (min 30 (basePos.2 * (9/10) + byy * (1/10))))
          else
            (basePos.1, max (-8) (min 8 (byy * (5/10))))

open scoped Classical in
/-- TeamManager._handle_ball_interaction: role-specific kick when within
interaction range (the kick_ball range check still applies inside). -/
noncomputable def handleBallInteraction (ts : TeamState) (p : Player)
    (ball : Ball) (hashFn : String → ℤ) : Player × Ball :=
  let ballX := ball.x
  let ballY := ball.y
  let opponentGoalX : ℝ := if ts.teamName = "home" then 52 else -52
  if p.role = PlayerRole.goalkeeper then
    let clearX := opponentGoalX * (5/10)
    let clearY := ballY + (if ballY > 0 then (-10 : ℝ) else 10)
    let r := p.kickBall ball (some (clearX, clearY)) (9/10)
    (r.1, r.2.1)
  else if p.role = PlayerRole.forward then
    let goalY := (((hashFn p.playerId) % 5 - 2 : ℤ) : ℝ) * (3/2)
    let r := p.kickBall ball (some (opponentGoalX, goalY)) 1
    (r.1, r.2.1)
  else
    let distanceToGoal := |ballX - opponentGoalX|
    if distanceToGoal < 25 then
      let r := p.kickBall ball (some (opponentGoalX, ballY * (5/10))) 1
      (r.1, r.2.1)
    else
      let advanceX := ballX + (opponentGoalX - ballX) * (5/10)
      let advanceY := ballY * (7/10)
      let r := p.kickBall ball (some (advanceX, advanceY)) (8/10)
      (r.1, r.2.1)

open scoped Classical in
/-- TeamManager._update_player_ai: interact within 1.2 m; chase when
retrieving or a close forward/midfielder; otherwise follow the formation
target. -/
noncomputable def updatePlayerAI (ts : TeamState) (p : Player) (dt : ℝ)
    (ball : Ball) (ballNeedsRetrieval : Bool) (hashFn : String → ℤ) :
    Player × Ball :=
  let ballX := ball.x
  let ballY := ball.y
  let ballDistance := p.distToBallPos ballX ballY
  if ballDistance < 12/10 then
    handleBallInteraction ts p ball hashFn
  else if ballNeedsRetrieval = true
      ∨ (ballDistance < 5
         ∧ (p.role = PlayerRole.forward ∨ p.role = PlayerRole.midfielder)) then
    ((p.setTarget ballX ballY).moveTowardsTarget dt, ball)
  else
    (p.moveTowardsTarget dt, ball)

/-- TeamManager._move_to_formation_position_simple: send the player to the
first slot of its role.  Python indexes the formation dict directly; for a
role absent from the formation that raises KeyError (swallowed by the team
update's try/except), modelled as a no-op; standard formations always have
every role. -/
noncomputable def moveToFormationPositionSimple (ts : TeamState) (p : Player) :
    Player :=
  match lookupA (ts.formation.getPositionsForTeam ts.teamName) p.role.value with
  | some (xy :: _) => p.setTarget xy.1 xy.2
  | some [] => p
  | none => p

open scoped Classical in
/-- TeamManager._handle_kickoff_behavior: the kicking team's players away
from the ball re-take formation slots during preparing/ready; the opposing
team is pushed back behind the centre line with a 5 m buffer. -/
noncomputable def handleKickoffBehavior (ts : TeamState) (ki : KickoffInfo)
    (ballPos : ℝ × ℝ) : TeamState :=
  if ki.team = some ts.teamName then
    if ki.state = "preparing" ∨ ki.state = "ready" then
      { ts with players := ts.players.map (fun p =>
          if p.distToBallPos ballPos.1 ballPos.2 > 5 then
            moveToFormationPositionSimple ts p
          else p) }
    else ts
  else
    let teamSide : ℝ := if ts.teamName = "away" then 1 else -1
    { ts with players := ts.players.map (fun p =>
        if (teamSide > 0 ∧ p.x < 5) ∨ (teamSide < 0 ∧ p.x > -5) then
          p.setTarget (teamSide * 5) (max (-25) (min 25 p.y))
        else p) }

/-- The non-kickoff body of TeamManager.update_team_ai: possession update,
retrieval check, formation targets, then the per-player AI step and
integration, threading the ball through possible kicks in roster order. -/
noncomputable def updateTeamAINoKickoff (ts : TeamState) (dt : ℝ) (ball : Ball)
    (opponentPlayers : List Player) (fb : FieldBounds) (currentTime : ℝ)
    (hashFn : String → ℤ) : TeamState × Ball :=
  let ts1 := updatePossessionStatus ts ball opponentPlayers
  let res := checkBallRetrievalNeeded ts1 ball opponentPlayers currentTime
  let ts2 := res.2
  let ts3 := updateFormationPositions ts2 ball.x ball.y res.1
  let final := ts3.players.foldl (fun (acc : List Player × Ball) p =>
      let r := updatePlayerAI ts3 p dt acc.2 res.1 hashFn
      (acc.1 ++ [r.1.update dt fb], r.2)) ([], ball)
  ({ ts3 with players := final.1 }, final.2)

open scoped Classical in
/-- TeamManager.update_team_ai: during an active kick-off only the kickoff
behavior plus per-player movement integration run and the ball is never
touched; otherwise the full possession/retrieval/formation/player pipeline
runs. -/
noncomputable def updateTeamAI (ts : TeamState) (dt : ℝ) (ball : Ball)
    (opponentPlayers : List Player) (fb : FieldBounds)
    (kickoffInfo : Option KickoffInfo) (currentTime : ℝ)
    (hashFn : String → ℤ) : TeamState × Ball :=
  if ts.players = [] then (ts, ball)
  else
    match kickoffInfo with
    | some ki =>
        if ki.active = true then
          let ts1 := handleKickoffBehavior ts ki (ball.x, ball.y)
          ({ ts1 with players := ts1.players.map (fun p =>
              (p.moveTowardsTarget dt).update dt fb) }, ball)
        else
          updateTeamAINoKickoff ts dt ball opponentPlayers fb currentTime hashFn
    | none =>
        updateTeamAINoKickoff ts dt ball opponentPlayers fb currentTime hashFn

/-! ## Kickoff state machine (src/engine/game_engine.py)

The engine-side kickoff fields: state string, timer, kicking team, the
designated kicker/receiver (modelled by the hasKickers flag plus the kicker
identifier recorded on the ball at the pass), and the ball.  Per
GameEngine._update the machine advances first, then the teams run (leaving
the ball untouched while a kick-off is active), then Ball.update integrates;
the frame below composes exactly the ball-relevant steps for the kickoff
phases. -/

structure EngineState where
  kickoffState : String
  kickoffTimer : ℝ
  kickoffTeam : String
  hasKickers : Bool
  kickerId : String
  ball : Ball

/-- GameEngine._kickoff_preparation_time (2.0 s). -/
noncomputable def kickoffPreparationTime : ℝ := 2

/-- GameEngine._kickoff_pass_delay (1.0 s). -/
noncomputable def kickoffPassDelay : ℝ := 1

/-- GameEngine._end_kickoff. -/
noncomputable def endKickoff (es : EngineState) : EngineState :=
  { es with kickoffState := "none", kickoffTimer := 0, hasKickers := false }

open scoped Classical in
/-- GameEngine._execute_kickoff_pass: without designated kickers the kickoff
is ended; otherwise the kicker passes with the fixed impulse (4.0 toward the
team's attacking direction, 1.0 sideways). -/
noncomputable def executeKickoffPass (es : EngineState) : EngineState :=
  if es.hasKickers = false then endKickoff es
  else
    let goalDirection : ℝ := if es.kickoffTeam = "home" then 1 else -1
    { es with ball := es.ball.kick (goalDirection * 4) 1 (some es.kickerId) }

open scoped Classical in
/-- GameEngine._update_kickoff_state: accumulate the timer, then
preparing -(2.0 s)-> ready -(1.0 s, pass)-> active -(1.0 s or speed > 2)->
none. -/
noncomputable def updateKickoffState (es : EngineState) (dt : ℝ) :
    EngineState :=
  if es.kickoffState = "none" then es
  else
    let es1 := { es with kickoffTimer := es.kickoffTimer + dt }
    if es1.kickoffState = "preparing" then
      (if es1.kickoffTimer ≥ kickoffPreparationTime then
        { es1 with kickoffState := "ready", kickoffTimer := 0 }
      else es1)
    else if es1.kickoffState = "ready" then
      (if es1.kickoffTimer ≥ kickoffPassDelay then
        { executeKickoffPass es1 with kickoffState := "active", kickoffTimer := 0 }
      else es1)
    else if es1.kickoffState = "active" then
      (if es1.kickoffTimer ≥ 1 ∨ es1.ball.speed > 2 then endKickoff es1 else es1)
    else es1

/-- One engine frame during the kickoff phases: machine advance then ball
physics on the standard bounds (team updates never touch the ball while a
kick-off is active — the frame condition proven for C10). -/
noncomputable def engineFrame (es : EngineState) (dt : ℝ) : EngineState :=
  let es1 := updateKickoffState es dt
  { es1 with ball := es1.ball.update dt stdBounds }

/-- Engine trajectory under a stream of tick deltas. -/
noncomputable def kickoffTraj (d : ℕ → ℝ) (es0 : EngineState) : ℕ → EngineState
  | 0 => es0
  | n + 1 => engineFrame (kickoffTraj d es0 n) (d n)

/-- Accumulated tick time of the first n ticks. -/
noncomputable def partialSum (d : ℕ → ℝ) : ℕ → ℝ
  | 0 => 0
  | n + 1 => partialSum d n + d n

/-- Ending condition of the active phase as seen at tick j (timer reached
1.0 s since activation at tick n2, or ball speed above 2 m/s at the check). -/
noncomputable def activeEndCond (d : ℕ → ℝ) (es0 : EngineState) (n2 j : ℕ) :
    Prop :=
  partialSum d j - partialSum d n2 ≥ 1
  ∨ (kickoffTraj d es0 (j - 1)).ball.speed > 2

/-- Ball at rest on the centre spot. -/
noncomputable def ball0 : Ball :=
  { x := 0, y := 0, velocityX := 0, velocityY := 0,
    isMoving := false, lastTouchedBy := none }

/-- Eleven home players on the positive x axis; the first is 1 m from the
centre-spot ball. -/
noncomputable def cexHomeC1 : List Player :=
  [mkPlayer "H1" "home" .forward 1 0, mkPlayer "H2" "home" .forward 3 0,
   mkPlayer "H3" "home" .midfielder 4 0, mkPlayer "H4" "home" .midfielder 5 0,
   mkPlayer "H5" "home" .midfielder 6 0, mkPlayer "H6" "home" .midfielder 7 0,
   mkPlayer "H7" "home" .defender 8 0, mkPlayer "H8" "home" .defender 9 0,
   mkPlayer "H9" "home" .defender 10 0, mkPlayer "H10" "home" .defender 11 0,
   mkPlayer "H11" "home" .goalkeeper 12 0]

/-- Eleven away players at the same distances; the first away player is also
exactly 1 m from the ball — a cross-team tie at the global minimum. -/
noncomputable def cexAwayC1 : List Player :=
  [mkPlayer "A1" "away" .forward 1 0, mkPlayer "A2" "away" .forward 3 0,
   mkPlayer "A3" "away" .midfielder 4 0, mkPlayer "A4" "away" .midfielder 5 0,
   mkPlayer "A5" "away" .midfielder 6 0, mkPlayer "A6" "away" .midfielder 7 0,
   mkPlayer "A7" "away" .defender 8 0, mkPlayer "A8" "away" .defender 9 0,
   mkPlayer "A9" "away" .defender 10 0, mkPlayer "A10" "away" .defender 11 0,
   mkPlayer "A11" "away" .goalkeeper 12 0]

/-- One-player home roster used in the C1 witness. -/
noncomputable def wHomeC1 : List Player := [mkPlayer "H1" "home" .forward 1 0]

/-- One-player away roster used in the C1 witness. -/
noncomputable def wAwayC1 : List Player := [mkPlayer "A1" "away" .forward 5 0]

/-- C2 counterexample ball: at (46, 0) — 6.5 m from the nearest boundary of
the 105 x 68 field, yet abs(x) > 45 — rolling at 0.3 m/s. -/
noncomputable def cexBallC2 : Ball :=
  { x := 46, y := 0, velocityX := 3/10, velocityY := 0,
    isMoving := true, lastTouchedBy := none }

/-- C2 counterexample own roster: one midfielder 10 m from the ball. -/
noncomputable def cexOursC2 : List Player :=
  [mkPlayer "H1" "home" .midfielder 46 10]

/-- C2 counterexample opponent roster: one midfielder 46 m away. -/
noncomputable def cexOppC2 : List Player :=
  [mkPlayer "A1" "away" .midfielder 0 0]

/-- C10 witness team: one forward at the centre. -/
noncomputable def wTeamC10 : TeamState :=
  mkTeamState "home" [mkPlayer "H1" "home" .forward 0 0]

/-- C10 witness kickoff info: active preparing kick-off for home. -/
noncomputable def wKickoffC10 : KickoffInfo :=
  { active := true, team := some "home", timer := 0, state := "preparing" }

/-- A ball at rest on the centre spot with an arbitrary last-touch record. -/
noncomputable def restBall (ltb : Option String) : Ball :=
  { x := 0, y := 0, velocityX := 0, velocityY := 0,
    isMoving := false, lastTouchedBy := ltb }

/-- Kickoff start state as set up by GameEngine: preparing with timer 0,
kickers designated, ball stopped at the centre spot. -/
noncomputable def kickoffStart (team kid : String) (ltb : Option String) :
    EngineState :=
  { kickoffState := "preparing", kickoffTimer := 0, kickoffTeam := team,
    hasKickers := true, kickerId := kid, ball := restBall ltb }

/-- Concrete ball with velocity (3, 4) — speed 5 — used as the C6 witness. -/
noncomputable def witnessBallC6 : Ball :=
  { x := 0, y := 0, velocityX := 3, velocityY := 4,
    isMoving := true, lastTouchedBy := none }

/-! ## Association-list lemmas for the q_table embedding -/

theorem lookupA_append {α : Type} (l1 l2 : List (String × α)) (k : String) :
    lookupA (l1 ++ l2) k =
      match lookupA l1 k with
      | some v => some v
      | none => lookupA l2 k := by
  induction l1 with
  | nil => simp [lookupA]
  | cons hd tl ih =>
      obtain ⟨k1, v1⟩ := hd
      by_cases h : k1 = k <;> simp [lookupA, h, ih]

theorem lookupA_setA_self {α : Type} (d : List (String × α)) (k : String) (v : α) :
    lookupA (setA d k v) k = some v := by
  induction d with
  | nil => simp [setA, lookupA]
  | cons hd tl ih =>
      obtain ⟨k1, v1⟩ := hd
      simp only [setA]
      by_cases h : k1 = k
      · rw [if_pos h]
        simp [lookupA]
      · rw [if_neg h]
        simp only [lookupA]
        rw [if_neg h, ih]

theorem lookupA_setA_ne {α : Type} (d : List (String × α)) (k k2 : String) (v : α)
    (h : k2 ≠ k) : lookupA (setA d k v) k2 = lookupA d k2 := by
  induction d with
  | nil =>
      simp only [setA, lookupA]
      rw [if_neg (Ne.symm h)]
  | cons hd tl ih =>
      obtain ⟨k1, v1⟩ := hd
      simp only [setA]
      by_cases h1 : k1 = k
      · rw [if_pos h1]
        have hk : ¬ k = k2 := Ne.symm h
        have hk1 : ¬ k1 = k2 := by rw [h1]; exact hk
        simp only [lookupA]
        rw [if_neg hk, if_neg hk1]
      · rw [if_neg h1]
        simp only [lookupA]
        by_cases h2 : k1 = k2
        · rw [if_pos h2, if_pos h2]
        · rw [if_neg h2, if_neg h2, ih]

theorem lookupA_ensureState_ne (t : QTable) (s s2 : String) (h : s2 ≠ s) :
    lookupA (ensureStateEntry t s) s2 = lookupA t s2 := by
  unfold ensureStateEntry
  cases hc : lookupA t s with
  | some d => rfl
  | none =>
      rw [lookupA_append]
      cases h2 : lookupA t s2 with
      | some v => rfl
      | none =>
          simp only [lookupA]
          rw [if_neg (Ne.symm h)]

theorem lookupA_ensureState_self (t : QTable) (s : String) :
    lookupA (ensureStateEntry t s) s = some ((lookupA t s).getD []) := by
  unfold ensureStateEntry
  cases hc : lookupA t s with
  | some d => simp [hc]
  | none =>
      rw [lookupA_append]
      simp [hc, lookupA]

theorem lookupA_ensureAction_ne (t : QTable) (s a s2 : String) (h : s2 ≠ s) :
    lookupA (ensureActionEntry t s a) s2 = lookupA t s2 := by
  unfold ensureActionEntry
  simp only
  cases hc : lookupA ((lookupA (ensureStateEntry t s) s).getD []) a with
  | some v =>
      exact lookupA_ensureState_ne t s s2 h
  | none =>
      rw [lookupA_setA_ne _ _ _ _ h, lookupA_ensureState_ne t s s2 h]

theorem qLookup_ensureAction (t : QTable) (s a : String) :
    qLookup (ensureActionEntry t s a) s a = qLookup t s a := by
  have h1 : (lookupA (ensureStateEntry t s) s).getD [] = (lookupA t s).getD [] := by
    rw [lookupA_ensureState_self]
    rfl
  unfold ensureActionEntry qLookup
  simp only [h1]
  cases hc : lookupA ((lookupA t s).getD []) a with
  | some v =>
      simp only [hc, lookupA_ensureState_self, Option.getD_some, h1]
  | none =>
      simp only [hc, lookupA_setA_self, Option.getD_some]
      rw [lookupA_append, hc]
      simp [lookupA]

/-- Abbreviation: the value Q(s, a) tracked through the iteration. -/
def qVal (s a : String) (t : QTable) : ℚ := qLookup t s a

/-- Abbreviation: max over next_state action values with the 0.0 fallback. -/
def mVal (ns : String) (t : QTable) : ℚ := maxOrZero ((lookupA t ns).getD [])

theorem learn_qVal_mVal (t : QTable) (s a : String) (r : ℚ) (ns : String)
    (hns : ns ≠ s) :
    qVal s a (learnFromExperience t s a r ns)
        = qVal s a t + learningRate * (r + discountFactor * mVal ns t - qVal s a t)
      ∧ mVal ns (learnFromExperience t s a r ns) = mVal ns t := by
  unfold learnFromExperience
  simp only
  constructor
  · unfold qVal qLookup
    rw [lookupA_setA_self]
    simp only [Option.getD_some]
    rw [lookupA_setA_self]
    simp only [Option.getD_some]
    have hm : lookupA (ensureStateEntry (ensureActionEntry t s a) ns) ns
        = some ((lookupA (ensureActionEntry t s a) ns).getD []) :=
      lookupA_ensureState_self _ _
    rw [hm]
    simp only [Option.getD_some]
    rw [lookupA_ensureAction_ne t s a ns hns]
    have hq := qLookup_ensureAction t s a
    unfold qLookup at hq
    rw [hq]
    rfl
  · unfold mVal
    rw [lookupA_setA_ne _ _ _ _ hns]
    rw [lookupA_ensureState_self]
    simp only [Option.getD_some]
    rw [lookupA_ensureAction_ne t s a ns hns]

/-- Closed form of the Q-value under repetition of one experience tuple with
next_state different from state: a geometric approach to the fixed point
r + gamma * max(Q(next_state, .)), which stays constant. -/
theorem qIterate_closed_form (s a ns : String) (r : ℚ) (hns : ns ≠ s) :
    ∀ (n : ℕ) (t : QTable),
      qVal s a (qIterate s a r ns n t)
          = (r + discountFactor * mVal ns t)
            + (1 - learningRate) ^ n * (qVal s a t - (r + discountFactor * mVal ns t))
        ∧ mVal ns (qIterate s a r ns n t) = mVal ns t := by
  intro n
  induction n with
  | zero => intro t; simp [qIterate]
  | succ n ih =>
      intro t
      have hstep := learn_qVal_mVal t s a r ns hns
      have ihl := ih (learnFromExperience t s a r ns)
      constructor
      · show qVal s a (qIterate s a r ns n (learnFromExperience t s a r ns)) = _
        rw [ihl.1, hstep.2, hstep.1]
        unfold learningRate discountFactor
        ring
      · show mVal ns (qIterate s a r ns n (learnFromExperience t s a r ns)) = _
        rw [ihl.2, hstep.2]

/-- C4 counterexample: with the concrete tuple (state "s", action "a",
reward 1, next_state "t") fed repeatedly to learn_from_experience from an
empty table, Q("s","a") does NOT converge to reward / (1 - discount_factor)
= 20: next_state "t" never acquires action values, so the update's max term
stays 0 and the iterates stay below 1. -/
theorem C4_counterexample :
    ¬ (∀ ε : ℚ, 0 < ε → ∃ N : ℕ, ∀ n : ℕ, N ≤ n →
        |qLookup (qIterate "s" "a" 1 "t" n []) "s" "a" - 1 / (1 - discountFactor)| < ε) := by
  intro h
  obtain ⟨N, hN⟩ := h 1 one_pos
  have hval := (qIterate_closed_form "s" "a" "t" 1 (by decide) N []).1
  have hm : mVal "t" ([] : QTable) = 0 := by simp [mVal, lookupA, maxOrZero]
  have hq : qVal "s" "a" ([] : QTable) = 0 := by simp [qVal, qLookup, lookupA]
  rw [hm, hq] at hval
  have hbound := hN N le_rfl
  unfold qVal at hval
  rw [hval] at hbound
  unfold learningRate discountFactor at hbound
  rw [abs_lt] at hbound
  norm_num at hbound
  have hpow : (0 : ℚ) < (9/10) ^ N := by positivity
  linarith [hbound.1]

/-- C4 (amended): repeatedly feeding the same (state, action, reward,
next_state) tuple with next_state different from state drives Q(state,action)
geometrically and monotonically toward reward + discount_factor * M, where M
is the (constant) maximum of next_state's recorded action values, 0 when
next_state is unseen — not toward reward / (1 - discount_factor); that limit
arises only in the self-referential case next_state = state with Q(state,
action) maximal in its row. -/
theorem C4_qlearning_limit (s a ns : String) (r : ℚ) (t0 : QTable)
    (hns : ns ≠ s) :
    (∀ n : ℕ, qLookup (qIterate s a r ns n t0) s a
        = (r + discountFactor * maxOrZero ((lookupA t0 ns).getD []))
          + (1 - learningRate) ^ n
            * (qLookup t0 s a - (r + discountFactor * maxOrZero ((lookupA t0 ns).getD []))))
    ∧ (∀ n : ℕ,
        |qLookup (qIterate s a r ns (n + 1) t0) s a
            - (r + discountFactor * maxOrZero ((lookupA t0 ns).getD []))|
          = (1 - learningRate)
            * |qLookup (qIterate s a r ns n t0) s a
                - (r + discountFactor * maxOrZero ((lookupA t0 ns).getD []))|) := by
  have key := qIterate_closed_form s a ns r hns
  constructor
  · intro n
    exact (key n t0).1
  · intro n
    have h1 := (key (n + 1) t0).1
    have h2 := (key n t0).1
    unfold qVal mVal at h1 h2
    rw [h1, h2]
    have : (r + discountFactor * maxOrZero ((lookupA t0 ns).getD []))
          + (1 - learningRate) ^ (n + 1)
            * (qLookup t0 s a - (r + discountFactor * maxOrZero ((lookupA t0 ns).getD [])))
          - (r + discountFactor * maxOrZero ((lookupA t0 ns).getD []))
        = (1 - learningRate) * ((1 - learningRate) ^ n
            * (qLookup t0 s a - (r + discountFactor * maxOrZero ((lookupA t0 ns).getD [])))) := by
      ring
    rw [this]
    rw [abs_mul]
    have : |(1 : ℚ) - learningRate| = 1 - learningRate := by
      rw [abs_of_pos]; unfold learningRate; norm_num
    rw [this]
    congr 1
    ring_nf

/-- C4 witness: the amended theorem applied to the concrete tuple
("s", "a", reward 1, next_state "t") on the empty table. -/
theorem C4_qlearning_limit_witness :
    ("t" : String) ≠ "s"
    ∧ ((∀ n : ℕ, qLookup (qIterate "s" "a" 1 "t" n []) "s" "a"
        = ((1 : ℚ) + discountFactor * maxOrZero ((lookupA [] "t").getD []))
          + (1 - learningRate) ^ n
            * (qLookup [] "s" "a" - (1 + discountFactor * maxOrZero ((lookupA [] "t").getD []))))
      ∧ (∀ n : ℕ,
          |qLookup (qIterate "s" "a" 1 "t" (n + 1) []) "s" "a"
              - (1 + discountFactor * maxOrZero ((lookupA [] "t").getD []))|
            = (1 - learningRate)
              * |qLookup (qIterate "s" "a" 1 "t" n []) "s" "a"
                  - (1 + discountFactor * maxOrZero ((lookupA [] "t").getD []))|)) :=
  ⟨by decide, C4_qlearning_limit "s" "a" "t" 1 [] (by decide)⟩

/-- C5: a single check_goal call with the ball at (-52.0, 0.0) — the function
takes no ball velocity — returns exactly one Goal with scoring_team "away"
and increments away_score by exactly 1 (home_score untouched), and
symmetrically at (52.0, 0.0) for "home", for any detector built over the
default 105 x 68 field with goal width 7.32. -/
theorem C5_goal_scoring (gd : GoalDetector) (now : ℚ) (lt : Option String)
    (hL : gd.fieldLength = 105) (hG : gd.goalWidth = 732/100) :
    (∃ g : Goal,
        (gd.checkGoal now (-52) 0 lt).1 = some g
      ∧ g.scoringTeam = "away"
      ∧ (gd.checkGoal now (-52) 0 lt).2.awayScore = gd.awayScore + 1
      ∧ (gd.checkGoal now (-52) 0 lt).2.homeScore = gd.homeScore
      ∧ (gd.checkGoal now (-52) 0 lt).2.goalsScored = gd.goalsScored ++ [g])
    ∧ (∃ g : Goal,
        (gd.checkGoal now 52 0 lt).1 = some g
      ∧ g.scoringTeam = "home"
      ∧ (gd.checkGoal now 52 0 lt).2.homeScore = gd.homeScore + 1
      ∧ (gd.checkGoal now 52 0 lt).2.awayScore = gd.awayScore
      ∧ (gd.checkGoal now 52 0 lt).2.goalsScored = gd.goalsScored ++ [g]) := by
  unfold GoalDetector.checkGoal GoalDetector.halfGoal GoalDetector.homeGoalLine
    GoalDetector.awayGoalLine GoalDetector.halfField
  rw [hL, hG]
  constructor
  · refine ⟨{ scoringTeam := "away", timeScored := now, ballPosition := (-52, 0),
              scorerId := lt }, ?_⟩
    norm_num
  · refine ⟨{ scoringTeam := "home", timeScored := now, ballPosition := (52, 0),
              scorerId := lt }, ?_⟩
    norm_num

/-- C5 witness: the theorem applied to the freshly constructed detector. -/
theorem C5_goal_scoring_witness :
    GoalDetector.init.fieldLength = 105 ∧ GoalDetector.init.goalWidth = 732/100
    ∧ ((∃ g : Goal,
        (GoalDetector.init.checkGoal 0 (-52) 0 none).1 = some g
      ∧ g.scoringTeam = "away"
      ∧ (GoalDetector.init.checkGoal 0 (-52) 0 none).2.awayScore
          = GoalDetector.init.awayScore + 1
      ∧ (GoalDetector.init.checkGoal 0 (-52) 0 none).2.homeScore
          = GoalDetector.init.homeScore
      ∧ (GoalDetector.init.checkGoal 0 (-52) 0 none).2.goalsScored
          = GoalDetector.init.goalsScored ++ [g])
    ∧ (∃ g : Goal,
        (GoalDetector.init.checkGoal 0 52 0 none).1 = some g
      ∧ g.scoringTeam = "home"
      ∧ (GoalDetector.init.checkGoal 0 52 0 none).2.homeScore
          = GoalDetector.init.homeScore + 1
      ∧ (GoalDetector.init.checkGoal 0 52 0 none).2.awayScore
          = GoalDetector.init.awayScore
      ∧ (GoalDetector.init.checkGoal 0 52 0 none).2.goalsScored
          = GoalDetector.init.goalsScored ++ [g])) :=
  ⟨rfl, rfl, C5_goal_scoring GoalDetector.init 0 none rfl rfl⟩

/-- C9: for every formation, the away-side positions are the element-wise
negation (point reflection) of the home-side positions, role by role, with
role names and ordering preserved. -/
theorem C9_formation_mirroring (f : Formation) :
    f.getPositionsForTeam "away"
      = (f.getPositionsForTeam "home").map
          (fun rp => (rp.1, rp.2.map (fun xy => (-xy.1, -xy.2))))
    ∧ List.Forall₂ (fun ra rh : String × List (ℝ × ℝ) =>
        ra.1 = rh.1
        ∧ List.Forall₂ (fun pa ph : ℝ × ℝ => pa.1 = -ph.1 ∧ pa.2 = -ph.2) ra.2 rh.2)
      (f.getPositionsForTeam "away") (f.getPositionsForTeam "home") := by
  have hne : ("away" : String) ≠ "home" := by decide
  unfold Formation.getPositionsForTeam
  rw [if_neg hne, if_pos rfl]
  refine ⟨rfl, ?_⟩
  rw [List.forall₂_map_left_iff]
  rw [List.forall₂_same]
  intro rp _
  refine ⟨rfl, ?_⟩
  rw [List.forall₂_map_left_iff]
  rw [List.forall₂_same]
  intro p _
  exact ⟨rfl, rfl⟩

/-! ## Ball physics lemmas -/

theorem Ball.speed_nonneg (b : Ball) : 0 ≤ b.speed := Real.sqrt_nonneg _

theorem sqrt_scale (c x y : ℝ) (hc : 0 ≤ c) :
    Real.sqrt ((x * c) ^ 2 + (y * c) ^ 2) = c * Real.sqrt (x ^ 2 + y ^ 2) := by
  rw [show (x * c) ^ 2 + (y * c) ^ 2 = c ^ 2 * (x ^ 2 + y ^ 2) by ring]
  rw [Real.sqrt_mul (sq_nonneg c), Real.sqrt_sq hc]

theorem Ball.speed_eq_zero_iff (b : Ball) :
    b.speed = 0 ↔ b.velocityX = 0 ∧ b.velocityY = 0 := by
  unfold Ball.speed
  constructor
  · intro h
    have h2 := Real.sqrt_eq_zero'.mp h
    have hx : b.velocityX ^ 2 = 0 :=
      le_antisymm (by nlinarith [sq_nonneg b.velocityY]) (sq_nonneg _)
    have hy : b.velocityY ^ 2 = 0 :=
      le_antisymm (by nlinarith [sq_nonneg b.velocityX]) (sq_nonneg _)
    exact ⟨pow_eq_zero_iff two_ne_zero |>.mp hx, pow_eq_zero_iff two_ne_zero |>.mp hy⟩
  · rintro ⟨h1, h2⟩
    rw [h1, h2]
    simp

theorem applyFriction_scale (b : Ball) (dt : ℝ) (hdt : 0 ≤ dt) :
    ∃ c : ℝ, 0 ≤ c ∧ c ≤ 1
      ∧ (b.applyFriction dt).velocityX = c * b.velocityX
      ∧ (b.applyFriction dt).velocityY = c * b.velocityY := by
  unfold Ball.applyFriction
  by_cases h : b.speed > 1/10
  · rw [if_pos h]
    have hs : (0 : ℝ) < b.speed := lt_trans (by norm_num) h
    have hmin0 : 0 ≤ min (ballFriction * dt) b.speed := by
      apply le_min
      · unfold ballFriction; positivity
      · exact b.speed_nonneg
    have hminle : min (ballFriction * dt) b.speed ≤ b.speed := min_le_right _ _
    refine ⟨(b.speed - min (ballFriction * dt) b.speed) / b.speed, ?_, ?_, by ring, by ring⟩
    · apply div_nonneg (by linarith) hs.le
    · rw [div_le_one hs]
      linarith
  · rw [if_neg h]
    exact ⟨0, le_refl _, by norm_num, by simp, by simp⟩

theorem applyFriction_speed (b : Ball) (dt : ℝ) (hdt : 0 ≤ dt) :
    (b.applyFriction dt).speed = if b.speed > 1/10 then max (b.speed - ballFriction * dt) 0 else 0 := by
  unfold Ball.applyFriction
  by_cases h : b.speed > 1/10
  · rw [if_pos h, if_pos h]
    have hs : (0 : ℝ) < b.speed := lt_trans (by norm_num) h
    have hmin0 : 0 ≤ min (ballFriction * dt) b.speed := by
      apply le_min
      · unfold ballFriction; positivity
      · exact b.speed_nonneg
    have hfac0 : 0 ≤ (b.speed - min (ballFriction * dt) b.speed) / b.speed := by
      apply div_nonneg (by linarith [min_le_right (ballFriction * dt) b.speed]) hs.le
    show Real.sqrt ((b.velocityX * _) ^ 2 + (b.velocityY * _) ^ 2) = _
    rw [sqrt_scale _ _ _ hfac0]
    show (b.speed - min (ballFriction * dt) b.speed) / b.speed * b.speed = _
    rw [div_mul_cancel₀ _ (ne_of_gt hs)]
    rcases le_total (ballFriction * dt) b.speed with hc | hc
    · rw [min_eq_left hc, max_eq_left (by linarith)]
    · rw [min_eq_right hc, max_eq_right (by linarith)]
      ring
  · rw [if_neg h, if_neg h]
    show Real.sqrt ((0:ℝ) ^ 2 + (0:ℝ) ^ 2) = 0
    norm_num

theorem integrate_speed (b : Ball) (dt : ℝ) : (b.integrate dt).speed = b.speed := rfl

theorem boundaries_speed_le (b : Ball) (fb : FieldBounds) :
    (b.boundaries fb).speed ≤ b.speed := by
  unfold Ball.boundaries Ball.speed
  dsimp only
  split_ifs <;>
    · apply Real.sqrt_le_sqrt
      dsimp only
      try unfold ballBounce
      nlinarith [sq_nonneg b.velocityX, sq_nonneg b.velocityY]

theorem update_speed_decay (b : Ball) (dt : ℝ) (fb : FieldBounds) (hdt : 0 ≤ dt) :
    (b.update dt fb).speed ≤ max (b.speed - ballFriction * dt) 0 := by
  unfold Ball.update
  have h1 := boundaries_speed_le ((b.applyFriction dt).integrate dt) fb
  rw [integrate_speed, applyFriction_speed b dt hdt] at h1
  by_cases h : b.speed > 1/10
  · rw [if_pos h] at h1
    exact h1
  · rw [if_neg h] at h1
    exact le_trans h1 (le_max_right _ _)

theorem update_speed_le (b : Ball) (dt : ℝ) (fb : FieldBounds) (hdt : 0 ≤ dt) :
    (b.update dt fb).speed ≤ b.speed := by
  refine le_trans (update_speed_decay b dt fb hdt) (max_le ?_ b.speed_nonneg)
  have : 0 ≤ ballFriction * dt := by unfold ballFriction; positivity
  linarith

theorem updates_speed_decay (fb : FieldBounds) :
    ∀ (dts : List ℝ) (b : Ball), (∀ x ∈ dts, 0 ≤ x) →
      (b.updates fb dts).speed ≤ max (b.speed - ballFriction * dts.sum) 0 := by
  intro dts
  induction dts with
  | nil =>
      intro b _
      simp [Ball.updates]
  | cons dt rest ih =>
      intro b h
      have hdt : 0 ≤ dt := h dt (by simp)
      have hrest : ∀ x ∈ rest, 0 ≤ x := fun x hx => h x (by simp [hx])
      have h1 : (b.updates fb (dt :: rest)) = (b.update dt fb).updates fb rest := rfl
      rw [h1]
      have h2 := ih (b.update dt fb) hrest
      have h3 := update_speed_decay b dt fb hdt
      have hsum : 0 ≤ ballFriction * rest.sum := by
        unfold ballFriction
        have : 0 ≤ rest.sum := List.sum_nonneg hrest
        positivity
      refine le_trans h2 ?_
      have hmono : (b.update dt fb).speed - ballFriction * rest.sum
          ≤ max (b.speed - ballFriction * dt) 0 - ballFriction * rest.sum := by
        linarith
      refine le_trans (max_le_max hmono (le_refl 0)) ?_
      rcases le_total 0 (b.speed - ballFriction * dt) with hc | hc
      · rw [max_eq_left hc]
        simp only [List.sum_cons]
        apply max_le_max _ (le_refl 0)
        ring_nf
        linarith
      · rw [max_eq_right hc]
        simp only [List.sum_cons]
        apply max_le
        · exact le_trans (by linarith) (le_max_right _ _)
        · exact le_max_right _ _

theorem updates_velocity_zero (b : Ball) (fb : FieldBounds) (dts : List ℝ)
    (hdts : ∀ x ∈ dts, 0 ≤ x) (hstop : b.speed ≤ ballFriction * dts.sum) :
    (b.updates fb dts).velocityX = 0 ∧ (b.updates fb dts).velocityY = 0 := by
  have h1 := updates_speed_decay fb dts b hdts
  have h2 : max (b.speed - ballFriction * dts.sum) 0 ≤ 0 :=
    max_le (by linarith) (le_refl 0)
  have h3 : (b.updates fb dts).speed = 0 :=
    le_antisymm (le_trans h1 h2) (Ball.speed_nonneg _)
  exact (Ball.speed_eq_zero_iff _).mp h3

theorem applyFriction_pos (b : Ball) (d : ℝ) :
    (b.applyFriction d).x = b.x ∧ (b.applyFriction d).y = b.y := by
  unfold Ball.applyFriction
  dsimp only
  split_ifs <;> exact ⟨rfl, rfl⟩

theorem applyFriction_vel_fast (b : Ball) (d : ℝ) (h : b.speed > 1/10) :
    (b.applyFriction d).velocityX
        = b.velocityX * ((b.speed - min (ballFriction * d) b.speed) / b.speed)
    ∧ (b.applyFriction d).velocityY
        = b.velocityY * ((b.speed - min (ballFriction * d) b.speed) / b.speed) := by
  unfold Ball.applyFriction
  dsimp only
  rw [if_pos h]
  exact ⟨rfl, rfl⟩

theorem boundaries_id (b : Ball) (fb : FieldBounds)
    (h1 : ¬ (b.x - ballRadius < fb.minX)) (h2 : ¬ (b.x + ballRadius > fb.maxX))
    (h3 : ¬ (b.y - ballRadius < fb.minY)) (h4 : ¬ (b.y + ballRadius > fb.maxY)) :
    b.boundaries fb = b := by
  unfold Ball.boundaries
  dsimp only
  rw [if_neg h1, if_neg h2, if_neg h3, if_neg h4]

/-- One tick of the C6 counterexample trajectory: with the ball rolling right
along the x axis well inside the field, the tick subtracts exactly
friction * dt from the velocity and advances the position. -/
theorem cex_step (b : Ball) (d : ℝ) (hd : 0 < d) (hd1 : d ≤ 1/2)
    (hvx : 43/10 ≤ b.velocityX) (hvx5 : b.velocityX ≤ 5) (hvy : b.velocityY = 0)
    (hy : b.y = 0) (hx0 : 0 ≤ b.x) (hx5 : b.x ≤ 5) :
    (b.update d stdBounds).velocityX = b.velocityX - (7/10) * d
    ∧ (b.update d stdBounds).velocityY = 0
    ∧ (b.update d stdBounds).y = 0
    ∧ (b.update d stdBounds).x = b.x + (b.velocityX - (7/10) * d) * d := by
  have hs : b.speed = b.velocityX := by
    unfold Ball.speed
    rw [hvy, show b.velocityX ^ 2 + (0:ℝ) ^ 2 = b.velocityX ^ 2 by ring]
    exact Real.sqrt_sq (by linarith)
  have hgt : b.speed > 1/10 := by rw [hs]; linarith
  have hne : b.velocityX ≠ 0 := by linarith
  have hmin : min (ballFriction * d) b.speed = ballFriction * d := by
    apply min_eq_left
    rw [hs]
    unfold ballFriction
    nlinarith
  have hfin := applyFriction_vel_fast b d hgt
  have hpos := applyFriction_pos b d
  have h1x : (b.applyFriction d).velocityX = b.velocityX - 7/10 * d := by
    rw [hfin.1, hmin, hs]
    rw [mul_comm, div_mul_cancel₀ _ hne]
    unfold ballFriction
    ring
  have h1y : (b.applyFriction d).velocityY = 0 := by
    rw [hfin.2, hvy]
    ring
  have h2x : ((b.applyFriction d).integrate d).x
      = b.x + (b.velocityX - 7/10 * d) * d := by
    show (b.applyFriction d).x + (b.applyFriction d).velocityX * d = _
    rw [hpos.1, h1x]
  have h2y : ((b.applyFriction d).integrate d).y = 0 := by
    show (b.applyFriction d).y + (b.applyFriction d).velocityY * d = _
    rw [hpos.2, h1y, hy]
    ring
  have h2vx : ((b.applyFriction d).integrate d).velocityX
      = b.velocityX - 7/10 * d := h1x
  have h2vy : ((b.applyFriction d).integrate d).velocityY = 0 := h1y
  have hxlow : (0 : ℝ) ≤ b.x + (b.velocityX - 7/10 * d) * d := by nlinarith
  have hxhigh : b.x + (b.velocityX - 7/10 * d) * d ≤ 15/2 := by nlinarith
  have hbd := boundaries_id ((b.applyFriction d).integrate d) stdBounds
    (by rw [h2x]; unfold stdBounds ballRadius; dsimp only; push_neg; linarith)
    (by rw [h2x]; unfold stdBounds ballRadius; dsimp only; push_neg; linarith)
    (by rw [h2y]; unfold stdBounds ballRadius; dsimp only; push_neg; norm_num)
    (by rw [h2y]; unfold stdBounds ballRadius; dsimp only; push_neg; norm_num)
  have hupd : b.update d stdBounds
      = ((b.applyFriction d).integrate d).boundaries stdBounds := rfl
  rw [hupd, hbd]
  exact ⟨h2vx, h2vy, h2y, h2x⟩

/-- Invariant of the C6 counterexample trajectory under the geometrically
shrinking tick deltas 1/2, 1/4, ...: the velocity stays above 4.3 m/s. -/
theorem cex_invariant (n : ℕ) :
    (cexBall.trajFrom stdBounds cexDts n).velocityX = 43/10 + (7/10) * (1/2) ^ n
    ∧ (cexBall.trajFrom stdBounds cexDts n).velocityY = 0
    ∧ (cexBall.trajFrom stdBounds cexDts n).y = 0
    ∧ 0 ≤ (cexBall.trajFrom stdBounds cexDts n).x
    ∧ (cexBall.trajFrom stdBounds cexDts n).x ≤ 5 * (1 - (1/2) ^ n) := by
  induction n with
  | zero =>
      refine ⟨?_, rfl, rfl, le_refl _, ?_⟩ <;> (unfold cexBall Ball.trajFrom) <;> norm_num
  | succ n ih =>
      obtain ⟨hvx, hvy, hy, hx0, hx5⟩ := ih
      have hpow0 : (0:ℝ) < (1/2) ^ n := by positivity
      have hpow1 : ((1:ℝ)/2) ^ n ≤ 1 := pow_le_one₀ (by norm_num) (by norm_num)
      have hdpos : (0:ℝ) < cexDts n := by unfold cexDts; positivity
      have hdle : cexDts n ≤ 1/2 := by
        unfold cexDts
        calc ((1:ℝ)/2) ^ (n + 1) = (1/2) ^ n * (1/2) := pow_succ _ _
        _ ≤ 1 * (1/2) := by nlinarith
        _ = 1/2 := by norm_num
      have hstep := cex_step (cexBall.trajFrom stdBounds cexDts n) (cexDts n)
        hdpos hdle (by rw [hvx]; linarith) (by rw [hvx]; linarith) hvy hy hx0
        (by nlinarith)
      have htraj : cexBall.trajFrom stdBounds cexDts (n+1)
          = (cexBall.trajFrom stdBounds cexDts n).update (cexDts n) stdBounds := rfl
      rw [htraj]
      have hps : ((1:ℝ)/2) ^ (n + 1) = (1/2) ^ n * (1/2) := pow_succ _ _
      refine ⟨?_, hstep.2.1, hstep.2.2.1, ?_, ?_⟩
      · rw [hstep.1, hvx]
        have hdval : cexDts n = (1/2) ^ (n + 1) := rfl
        rw [hdval, hps]
        ring
      · rw [hstep.2.2.2]
        have hvd : 0 ≤ ((cexBall.trajFrom stdBounds cexDts n).velocityX
            - 7/10 * cexDts n) * cexDts n := by
          apply mul_nonneg _ hdpos.le
          rw [hvx]
          nlinarith
        linarith
      · rw [hstep.2.2.2, hvx]
        have hdval : cexDts n = (1/2) ^ (n + 1) := rfl
        rw [hdval, hps]
        nlinarith

/-- C6 counterexample: from speed 5 with the strictly positive tick deltas
1/2, 1/4, 1/8, ... (no kicks), the velocity never reaches (0, 0) in any
number of ticks: no tick-count bound proportional to s / friction (or any
bound at all) exists for arbitrary tick sequences. -/
theorem C6_counterexample :
    cexBall.speed = 5
    ∧ (∀ n : ℕ, (0:ℝ) < cexDts n)
    ∧ ¬ ∃ n : ℕ, ((cexBall.trajFrom stdBounds cexDts n).velocityX = 0
        ∧ (cexBall.trajFrom stdBounds cexDts n).velocityY = 0) := by
  refine ⟨?_, fun n => by unfold cexDts; positivity, ?_⟩
  · unfold cexBall Ball.speed
    dsimp only
    rw [show (5:ℝ) ^ 2 + 0 ^ 2 = 5 ^ 2 by ring]
    exact Real.sqrt_sq (by norm_num)
  · rintro ⟨n, hvx, _⟩
    have h := (cex_invariant n).1
    rw [hvx] at h
    have hpos : (0:ℝ) < (1/2) ^ n := by positivity
    linarith

/-- C6 (amended): for any tick deltas, a tick never increases the ball speed
and the friction stage scales the velocity by a factor in [0, 1] (never
reversing a sign); and the velocity is exactly (0, 0) as soon as the
accumulated tick time reaches speed / friction — in particular, for a fixed
per-tick dt, within ceil(s / (friction * dt)) ticks. -/
theorem C6_friction_monotonicity (b : Ball) (fb : FieldBounds) (dt : ℝ)
    (dts : List ℝ) (hdt : 0 ≤ dt) (hdts : ∀ x ∈ dts, 0 ≤ x)
    (hstop : b.speed ≤ ballFriction * dts.sum) :
    (b.update dt fb).speed ≤ b.speed
    ∧ (∃ c : ℝ, 0 ≤ c ∧ c ≤ 1
        ∧ (b.applyFriction dt).velocityX = c * b.velocityX
        ∧ (b.applyFriction dt).velocityY = c * b.velocityY)
    ∧ ((b.updates fb dts).velocityX = 0 ∧ (b.updates fb dts).velocityY = 0) :=
  ⟨update_speed_le b dt fb hdt, applyFriction_scale b dt hdt,
   updates_velocity_zero b fb dts hdts hstop⟩

/-- C6 witness: ball with velocity (3, 4) (speed 5), unit ticks; eight ticks
accumulate 8 s ≥ 5 / 0.7 s, so the velocity is exactly zero. -/
theorem C6_friction_monotonicity_witness :
    (0 : ℝ) ≤ 1
    ∧ (∀ x ∈ List.replicate 8 (1 : ℝ), (0 : ℝ) ≤ x)
    ∧ witnessBallC6.speed ≤ ballFriction * (List.replicate 8 (1 : ℝ)).sum
    ∧ ((witnessBallC6.update 1 stdBounds).speed ≤ witnessBallC6.speed
      ∧ (∃ c : ℝ, 0 ≤ c ∧ c ≤ 1
          ∧ (witnessBallC6.applyFriction 1).velocityX = c * witnessBallC6.velocityX
          ∧ (witnessBallC6.applyFriction 1).velocityY = c * witnessBallC6.velocityY)
      ∧ ((witnessBallC6.updates stdBounds (List.replicate 8 (1 : ℝ))).velocityX = 0
        ∧ (witnessBallC6.updates stdBounds (List.replicate 8 (1 : ℝ))).velocityY = 0)) := by
  have hsp : witnessBallC6.speed = 5 := by
    unfold witnessBallC6 Ball.speed
    rw [show ((3 : ℝ) ^ 2 + (4 : ℝ) ^ 2) = 5 ^ 2 by norm_num]
    exact Real.sqrt_sq (by norm_num)
  have hstop : witnessBallC6.speed ≤ ballFriction * (List.replicate 8 (1 : ℝ)).sum := by
    rw [hsp]
    unfold ballFriction
    simp
    norm_num
  exact ⟨by norm_num, by simp, hstop,
    C6_friction_monotonicity witnessBallC6 stdBounds 1 (List.replicate 8 1)
      (by norm_num) (by simp) hstop⟩

/-- C7: for every force vector and pre-kick velocity, the post-kick speed is
at most 30 m/s, reached by uniform nonnegative scaling of both components of
the post-impulse velocity (scale 1 when no clamping is needed), and
last_touched_by is set to the kicker identifier. -/
theorem C7_kick_clamp (b : Ball) (fx fy : ℝ) (kid : Option String) :
    (b.kick fx fy kid).speed ≤ 30
    ∧ (∃ c : ℝ, 0 ≤ c
        ∧ (b.kick fx fy kid).velocityX = c * (b.velocityX + fx / ballMass)
        ∧ (b.kick fx fy kid).velocityY = c * (b.velocityY + fy / ballMass)
        ∧ (Real.sqrt ((b.velocityX + fx / ballMass) ^ 2
              + (b.velocityY + fy / ballMass) ^ 2) ≤ 30 → c = 1))
    ∧ (b.kick fx fy kid).lastTouchedBy = kid := by
  unfold Ball.kick
  dsimp only
  by_cases h : Real.sqrt ((b.velocityX + fx / ballMass) ^ 2
      + (b.velocityY + fy / ballMass) ^ 2) > 30
  · rw [if_pos h]
    dsimp only
    have hs : (0 : ℝ) < Real.sqrt ((b.velocityX + fx / ballMass) ^ 2
        + (b.velocityY + fy / ballMass) ^ 2) := lt_trans (by norm_num) h
    have hc : (0 : ℝ) ≤ 30 / Real.sqrt ((b.velocityX + fx / ballMass) ^ 2
        + (b.velocityY + fy / ballMass) ^ 2) := by positivity
    refine ⟨?_, ⟨30 / Real.sqrt ((b.velocityX + fx / ballMass) ^ 2
        + (b.velocityY + fy / ballMass) ^ 2), hc, by ring,
        by ring, ?_⟩, rfl⟩
    · unfold Ball.speed
      dsimp only
      rw [sqrt_scale _ _ _ hc, div_mul_cancel₀ _ (ne_of_gt hs)]
    · intro habs
      linarith
  · rw [if_neg h]
    dsimp only
    refine ⟨?_, ⟨1, by norm_num, by ring, by ring,
        fun _ => rfl⟩, rfl⟩
    unfold Ball.speed
    dsimp only
    exact le_of_not_lt h

/-! ## Boundary containment lemmas -/

theorem boundaries_contained (b : Ball) (fb : FieldBounds)
    (hbx : fb.minX + ballRadius ≤ fb.maxX - ballRadius)
    (hby : fb.minY + ballRadius ≤ fb.maxY - ballRadius) :
    fb.minX + ballRadius ≤ (b.boundaries fb).x
    ∧ (b.boundaries fb).x ≤ fb.maxX - ballRadius
    ∧ fb.minY + ballRadius ≤ (b.boundaries fb).y
    ∧ (b.boundaries fb).y ≤ fb.maxY - ballRadius := by
  unfold Ball.boundaries
  dsimp only
  split_ifs <;> (try dsimp only) <;> refine ⟨?_, ?_, ?_, ?_⟩ <;> linarith

/-- C8 counterexample: the claim quantifies over every field-bounds
rectangle, but for the degenerate rectangle [0, 0.5] x [-34, 34] — narrower
than a player diameter — Player.update leaves the clamped position above
max_x - radius. -/
theorem C8_counterexample :
    ¬ ((cexPlayerC8.update 1 cexBoundsC8).x ≤ cexBoundsC8.maxX - playerRadius) := by
  unfold Player.update cexPlayerC8 cexBoundsC8 playerRadius
  norm_num

/-- C8 (amended): for every tick delta and every field-bounds rectangle wide
enough for the entity (min + radius ≤ max - radius on both axes), the
post-integration position of both Ball.update and Player.update satisfies
min + radius ≤ coordinate ≤ max - radius on both axes. -/
theorem C8_boundary_containment (b : Ball) (p : Player) (fb : FieldBounds)
    (dtb dtp : ℝ)
    (hbx : fb.minX + ballRadius ≤ fb.maxX - ballRadius)
    (hby : fb.minY + ballRadius ≤ fb.maxY - ballRadius)
    (hpx : fb.minX + playerRadius ≤ fb.maxX - playerRadius)
    (hpy : fb.minY + playerRadius ≤ fb.maxY - playerRadius) :
    (fb.minX + ballRadius ≤ (b.update dtb fb).x
      ∧ (b.update dtb fb).x ≤ fb.maxX - ballRadius
      ∧ fb.minY + ballRadius ≤ (b.update dtb fb).y
      ∧ (b.update dtb fb).y ≤ fb.maxY - ballRadius)
    ∧ (fb.minX + playerRadius ≤ (p.update dtp fb).x
      ∧ (p.update dtp fb).x ≤ fb.maxX - playerRadius
      ∧ fb.minY + playerRadius ≤ (p.update dtp fb).y
      ∧ (p.update dtp fb).y ≤ fb.maxY - playerRadius) := by
  constructor
  · exact boundaries_contained _ fb hbx hby
  · unfold Player.update
    simp only
    refine ⟨le_max_left _ _, max_le hpx (min_le_left _ _),
            le_max_left _ _, max_le hpy (min_le_left _ _)⟩

/-- C8 witness: the amended theorem applied to the standard 105 x 68 field
bounds with the concrete ball and player. -/
theorem C8_boundary_containment_witness :
    (stdBounds.minX + ballRadius ≤ stdBounds.maxX - ballRadius)
    ∧ (stdBounds.minY + ballRadius ≤ stdBounds.maxY - ballRadius)
    ∧ (stdBounds.minX + playerRadius ≤ stdBounds.maxX - playerRadius)
    ∧ (stdBounds.minY + playerRadius ≤ stdBounds.maxY - playerRadius)
    ∧ ((stdBounds.minX + ballRadius ≤ (cexBall.update 1 stdBounds).x
      ∧ (cexBall.update 1 stdBounds).x ≤ stdBounds.maxX - ballRadius
      ∧ stdBounds.minY + ballRadius ≤ (cexBall.update 1 stdBounds).y
      ∧ (cexBall.update 1 stdBounds).y ≤ stdBounds.maxY - ballRadius)
    ∧ (stdBounds.minX + playerRadius ≤ (cexPlayerC8.update 1 stdBounds).x
      ∧ (cexPlayerC8.update 1 stdBounds).x ≤ stdBounds.maxX - playerRadius
      ∧ stdBounds.minY + playerRadius ≤ (cexPlayerC8.update 1 stdBounds).y
      ∧ (cexPlayerC8.update 1 stdBounds).y ≤ stdBounds.maxY - playerRadius)) := by
  have h1 : stdBounds.minX + ballRadius ≤ stdBounds.maxX - ballRadius := by
    unfold stdBounds ballRadius; norm_num
  have h2 : stdBounds.minY + ballRadius ≤ stdBounds.maxY - ballRadius := by
    unfold stdBounds ballRadius; norm_num
  have h3 : stdBounds.minX + playerRadius ≤ stdBounds.maxX - playerRadius := by
    unfold stdBounds playerRadius; norm_num
  have h4 : stdBounds.minY + playerRadius ≤ stdBounds.maxY - playerRadius := by
    unfold stdBounds playerRadius; norm_num
  exact ⟨h1, h2, h3, h4,
    C8_boundary_containment cexBall cexPlayerC8 stdBounds 1 1 h1 h2 h3 h4⟩

/-! ## C10: frame property of the kickoff branch of update_team_ai -/

theorem handleKickoffBehavior_frame (ts : TeamState) (ki : KickoffInfo)
    (bp : ℝ × ℝ) :
    (handleKickoffBehavior ts ki bp).teamName = ts.teamName
    ∧ (handleKickoffBehavior ts ki bp).inPossession = ts.inPossession
    ∧ (handleKickoffBehavior ts ki bp).ballCarrier = ts.ballCarrier
    ∧ (handleKickoffBehavior ts ki bp).lastRetrievalTime = ts.lastRetrievalTime := by
  unfold handleKickoffBehavior
  split_ifs <;> exact ⟨rfl, rfl, rfl, rfl⟩

/-- C10: whenever the supplied kickoff info is active, update_team_ai only
applies the kickoff behavior and integrates player movement: possession
flag, ball-carrier and last retrieval time are unchanged, the ball is
untouched (no possession update, no stuck-ball detection, no formation
reassignment, no interaction kick), and the roster is exactly the kickoff
pipeline. -/
theorem C10_kickoff_frame (ts : TeamState) (dt : ℝ) (ball : Ball)
    (opp : List Player) (fb : FieldBounds) (ki : KickoffInfo)
    (currentTime : ℝ) (hashFn : String → ℤ) (hact : ki.active = true) :
    (updateTeamAI ts dt ball opp fb (some ki) currentTime hashFn).1.inPossession
        = ts.inPossession
    ∧ (updateTeamAI ts dt ball opp fb (some ki) currentTime hashFn).1.ballCarrier
        = ts.ballCarrier
    ∧ (updateTeamAI ts dt ball opp fb (some ki) currentTime hashFn).1.lastRetrievalTime
        = ts.lastRetrievalTime
    ∧ (updateTeamAI ts dt ball opp fb (some ki) currentTime hashFn).2 = ball
    ∧ (ts.players = [] →
        (updateTeamAI ts dt ball opp fb (some ki) currentTime hashFn).1.players
          = ts.players)
    ∧ (ts.players ≠ [] →
        (updateTeamAI ts dt ball opp fb (some ki) currentTime hashFn).1.players
          = (handleKickoffBehavior ts ki (ball.x, ball.y)).players.map
              (fun p => (p.moveTowardsTarget dt).update dt fb)) := by
  unfold updateTeamAI
  by_cases hp : ts.players = []
  · rw [if_pos hp]
    exact ⟨rfl, rfl, rfl, rfl, fun _ => rfl, fun hne => absurd hp hne⟩
  · rw [if_neg hp]
    dsimp only
    rw [if_pos hact]
    have hf := handleKickoffBehavior_frame ts ki (ball.x, ball.y)
    exact ⟨hf.2.1, hf.2.2.1, hf.2.2.2, rfl, fun hpe => absurd hpe hp,
      fun _ => rfl⟩

/-- C10 witness: the frame property applied to a concrete one-player team
during an active preparing kickoff. -/
theorem C10_kickoff_frame_witness :
    wKickoffC10.active = true
    ∧ ((updateTeamAI wTeamC10 1 ball0 [] stdBounds (some wKickoffC10) 0
          (fun _ => 0)).1.inPossession = wTeamC10.inPossession
      ∧ (updateTeamAI wTeamC10 1 ball0 [] stdBounds (some wKickoffC10) 0
          (fun _ => 0)).1.ballCarrier = wTeamC10.ballCarrier
      ∧ (updateTeamAI wTeamC10 1 ball0 [] stdBounds (some wKickoffC10) 0
          (fun _ => 0)).1.lastRetrievalTime = wTeamC10.lastRetrievalTime
      ∧ (updateTeamAI wTeamC10 1 ball0 [] stdBounds (some wKickoffC10) 0
          (fun _ => 0)).2 = ball0
      ∧ (wTeamC10.players = [] →
          (updateTeamAI wTeamC10 1 ball0 [] stdBounds (some wKickoffC10) 0
            (fun _ => 0)).1.players = wTeamC10.players)
      ∧ (wTeamC10.players ≠ [] →
          (updateTeamAI wTeamC10 1 ball0 [] stdBounds (some wKickoffC10) 0
            (fun _ => 0)).1.players
          = (handleKickoffBehavior wTeamC10 wKickoffC10 (ball0.x, ball0.y)).players.map
              (fun p => (p.moveTowardsTarget 1).update 1 stdBounds))) :=
  ⟨rfl, C10_kickoff_frame wTeamC10 1 ball0 [] stdBounds wKickoffC10 0
    (fun _ => 0) rfl⟩

/-! ## Closest-player scan lemmas (shared by C1 and C2) -/

theorem minFrom_le_init (ball : Ball) :
    ∀ (l : List Player) (x : ℝ), minFrom ball l x ≤ x := by
  intro l
  induction l with
  | nil => intro x; exact le_refl x
  | cons q rest ih =>
      intro x
      have h1 : minFrom ball (q :: rest) x
          = minFrom ball rest (min x (q.distToBall ball)) := rfl
      rw [h1]
      exact le_trans (ih _) (min_le_left _ _)

theorem minFrom_min (ball : Ball) :
    ∀ (l : List Player) (a b : ℝ),
      minFrom ball l (min a b) = min a (minFrom ball l b) := by
  intro l
  induction l with
  | nil => intro a b; rfl
  | cons q rest ih =>
      intro a b
      show minFrom ball rest (min (min a b) (q.distToBall ball))
          = min a (minFrom ball rest (min b (q.distToBall ball)))
      rw [min_assoc, ih]

theorem minFrom_eq_min (ball : Ball) (q : Player) (rest : List Player) (x : ℝ) :
    minFrom ball (q :: rest) x = min x (minDistD (q :: rest) ball) := by
  show minFrom ball rest (min x (q.distToBall ball)) = _
  rw [minFrom_min]
  rfl

theorem scanClosest_from_some (mine : Bool) (ball : Ball) :
    ∀ (l : List Player) (bd : ℝ) (bp : Player) (bm : Bool),
    ∃ pl, scanClosest mine ball l (some (bd, bp, bm))
        = some (minFrom ball l bd, pl,
            if minFrom ball l bd < bd then mine else bm) := by
  intro l
  induction l with
  | nil =>
      intro bd bp bm
      refine ⟨bp, ?_⟩
      have h1 : minFrom ball [] bd = bd := rfl
      rw [h1, if_neg (lt_irrefl bd)]
      rfl
  | cons q rest ih =>
      intro bd bp bm
      have hstep : scanClosest mine ball (q :: rest) (some (bd, bp, bm))
          = scanClosest mine ball rest
              (if q.distToBall ball < bd then some (q.distToBall ball, q, mine)
               else some (bd, bp, bm)) := rfl
      by_cases h : q.distToBall ball < bd
      · rw [hstep, if_pos h]
        obtain ⟨pl, hpl⟩ := ih (q.distToBall ball) q mine
        refine ⟨pl, ?_⟩
        rw [hpl]
        have hmf : minFrom ball (q :: rest) bd
            = minFrom ball rest (q.distToBall ball) := by
          show minFrom ball rest (min bd (q.distToBall ball)) = _
          rw [min_eq_right h.le]
        rw [ite_self, hmf,
          if_pos (lt_of_le_of_lt (minFrom_le_init ball rest (q.distToBall ball)) h)]
      · rw [hstep, if_neg h]
        obtain ⟨pl, hpl⟩ := ih bd bp bm
        refine ⟨pl, ?_⟩
        rw [hpl]
        have hmf : minFrom ball (q :: rest) bd = minFrom ball rest bd := by
          show minFrom ball rest (min bd (q.distToBall ball)) = _
          rw [min_eq_left (not_lt.mp h)]
        rw [hmf]

/-- Both closest-player loops together: the final best distance is the global
minimum and the mine flag holds exactly when the own minimum is at most the
opponent minimum (ties kept by the first loop). -/
theorem scanBoth (ball : Ball) (mine opp : List Player) (hm : mine ≠ [])
    (ho : opp ≠ []) :
    ∃ pl, scanClosest false ball opp (scanClosest true ball mine none)
      = some (min (minDistD mine ball) (minDistD opp ball), pl,
          if minDistD mine ball ≤ minDistD opp ball then true else false) := by
  obtain ⟨p, rest, rfl⟩ := List.exists_cons_of_ne_nil hm
  obtain ⟨q, orest, rfl⟩ := List.exists_cons_of_ne_nil ho
  have hinner : scanClosest true ball (p :: rest) none
      = scanClosest true ball rest (some (p.distToBall ball, p, true)) := rfl
  obtain ⟨pl1, hpl1⟩ := scanClosest_from_some true ball rest (p.distToBall ball) p true
  rw [hinner, hpl1, ite_self]
  have hdm : minFrom ball rest (p.distToBall ball) = minDistD (p :: rest) ball := rfl
  rw [hdm]
  obtain ⟨pl2, hpl2⟩ :=
    scanClosest_from_some false ball (q :: orest) (minDistD (p :: rest) ball) pl1 true
  rw [hpl2]
  refine ⟨pl2, ?_⟩
  rw [minFrom_eq_min]
  by_cases hc : minDistD (p :: rest) ball ≤ minDistD (q :: orest) ball
  · rw [if_pos hc, min_eq_left hc, if_neg (lt_irrefl _)]
  · rw [if_neg hc, min_eq_right (le_of_not_le hc),
      if_pos (not_le.mp hc)]

/-! ## C1: possession exclusivity -/

theorem mkPlayer_dist_axis_nonneg (pid tm : String) (r : PlayerRole) (a : ℝ)
    (ha : 0 ≤ a) : (mkPlayer pid tm r a 0).distToBall ball0 = a := by
  unfold mkPlayer Player.distToBall ball0
  dsimp only
  rw [show ((0:ℝ) - a) ^ 2 + ((0:ℝ) - 0) ^ 2 = a ^ 2 by ring]
  exact Real.sqrt_sq ha

/-- C1 counterexample: with the 22 players placed so that the first home and
first away player are both exactly 1 m from the ball (a cross-team tie at
the global minimum, below 2.0 m), both TeamManagers running their possession
update in the same tick end with in_possession = true — "at most one team"
fails. -/
theorem C1_counterexample :
    cexHomeC1.length = 11 ∧ cexAwayC1.length = 11
    ∧ (updatePossessionStatus (mkTeamState "home" cexHomeC1) ball0
        cexAwayC1).inPossession = true
    ∧ (updatePossessionStatus (mkTeamState "away" cexAwayC1) ball0
        cexHomeC1).inPossession = true := by
  refine ⟨rfl, rfl, ?_, ?_⟩ <;>
    · unfold updatePossessionStatus mkTeamState cexHomeC1 cexAwayC1
      norm_num [scanClosest, mkPlayer_dist_axis_nonneg]

/-- C1 (amended): whenever the two teams' minimum distances to the ball
differ (no cross-team tie at the global minimum) and both rosters are
nonempty, at most one team gains possession, namely exactly the team owning
the globally nearest player when that distance is below 2.0 m; and when no
player is within 2.0 m both teams end with in_possession = false and
ball_carrier = None. -/
theorem C1_possession_exclusivity (tsH tsA : TeamState) (ball : Ball)
    (hH : tsH.players ≠ []) (hA : tsA.players ≠ [])
    (hne : minDistD tsH.players ball ≠ minDistD tsA.players ball) :
    ¬ ((updatePossessionStatus tsH ball tsA.players).inPossession = true
       ∧ (updatePossessionStatus tsA ball tsH.players).inPossession = true)
    ∧ ((updatePossessionStatus tsH ball tsA.players).inPossession = true
        ↔ (minDistD tsH.players ball < minDistD tsA.players ball
           ∧ minDistD tsH.players ball < 2))
    ∧ ((updatePossessionStatus tsA ball tsH.players).inPossession = true
        ↔ (minDistD tsA.players ball < minDistD tsH.players ball
           ∧ minDistD tsA.players ball < 2))
    ∧ (2 ≤ minDistD tsH.players ball → 2 ≤ minDistD tsA.players ball →
        (updatePossessionStatus tsH ball tsA.players).inPossession = false
        ∧ (updatePossessionStatus tsA ball tsH.players).inPossession = false
        ∧ (updatePossessionStatus tsH ball tsA.players).ballCarrier = none
        ∧ (updatePossessionStatus tsA ball tsH.players).ballCarrier = none) := by
  obtain ⟨plH, hplH⟩ := scanBoth ball tsH.players tsA.players hH hA
  obtain ⟨plA, hplA⟩ := scanBoth ball tsA.players tsH.players hA hH
  have hhome : updatePossessionStatus tsH ball tsA.players
      = (if min (minDistD tsH.players ball) (minDistD tsA.players ball) < 2 then
          (if (if minDistD tsH.players ball ≤ minDistD tsA.players ball then true
               else false) = true then
            { tsH with inPossession := true, ballCarrier := some plH }
          else { tsH with inPossession := false, ballCarrier := none })
        else { tsH with inPossession := false, ballCarrier := none }) := by
    unfold updatePossessionStatus
    rw [hplH]
  have haway : updatePossessionStatus tsA ball tsH.players
      = (if min (minDistD tsA.players ball) (minDistD tsH.players ball) < 2 then
          (if (if minDistD tsA.players ball ≤ minDistD tsH.players ball then true
               else false) = true then
            { tsA with inPossession := true, ballCarrier := some plA }
          else { tsA with inPossession := false, ballCarrier := none })
        else { tsA with inPossession := false, ballCarrier := none }) := by
    unfold updatePossessionStatus
    rw [hplA]
  rcases lt_or_gt_of_ne hne with hlt | hgt
  · have e1 : updatePossessionStatus tsH ball tsA.players
        = (if minDistD tsH.players ball < 2 then
            { tsH with inPossession := true, ballCarrier := some plH }
          else { tsH with inPossession := false, ballCarrier := none }) := by
      rw [hhome, min_eq_left hlt.le, if_pos hlt.le]
      simp
    have e2 : updatePossessionStatus tsA ball tsH.players
        = { tsA with inPossession := false, ballCarrier := none } := by
      rw [haway, min_eq_right hlt.le, if_neg (not_le.mpr hlt)]
      simp
    rw [e1, e2]
    refine ⟨?_, ?_, ?_, ?_⟩
    · rintro ⟨_, hfalse⟩
      simp at hfalse
    · by_cases h2 : minDistD tsH.players ball < 2
      · rw [if_pos h2]
        simp [hlt, h2]
      · rw [if_neg h2]
        simp [h2]
    · simp [not_lt.mpr hlt.le]
    · intro hge _
      rw [if_neg (not_lt.mpr hge)]
      exact ⟨rfl, rfl, rfl, rfl⟩
  · have e1 : updatePossessionStatus tsH ball tsA.players
        = { tsH with inPossession := false, ballCarrier := none } := by
      rw [hhome, min_eq_right hgt.le, if_neg (not_le.mpr hgt)]
      simp
    have e2 : updatePossessionStatus tsA ball tsH.players
        = (if minDistD tsA.players ball < 2 then
            { tsA with inPossession := true, ballCarrier := some plA }
          else { tsA with inPossession := false, ballCarrier := none }) := by
      rw [haway, min_eq_left hgt.le, if_pos hgt.le]
      simp
    rw [e1, e2]
    refine ⟨?_, ?_, ?_, ?_⟩
    · rintro ⟨hfalse, _⟩
      simp at hfalse
    · simp [not_lt.mpr hgt.le]
    · by_cases h2 : minDistD tsA.players ball < 2
      · rw [if_pos h2]
        simp [hgt, h2]
      · rw [if_neg h2]
        simp [h2]
    · intro _ hge
      rw [if_neg (not_lt.mpr hge)]
      exact ⟨rfl, rfl, rfl, rfl⟩

/-- C1 witness: the amended theorem applied to concrete one-player rosters
1 m and 5 m from the ball. -/
theorem C1_possession_exclusivity_witness :
    (mkTeamState "home" wHomeC1).players ≠ []
    ∧ (mkTeamState "away" wAwayC1).players ≠ []
    ∧ minDistD (mkTeamState "home" wHomeC1).players ball0
        ≠ minDistD (mkTeamState "away" wAwayC1).players ball0
    ∧ (¬ ((updatePossessionStatus (mkTeamState "home" wHomeC1) ball0
            (mkTeamState "away" wAwayC1).players).inPossession = true
         ∧ (updatePossessionStatus (mkTeamState "away" wAwayC1) ball0
            (mkTeamState "home" wHomeC1).players).inPossession = true)
      ∧ ((updatePossessionStatus (mkTeamState "home" wHomeC1) ball0
            (mkTeamState "away" wAwayC1).players).inPossession = true
          ↔ (minDistD (mkTeamState "home" wHomeC1).players ball0
              < minDistD (mkTeamState "away" wAwayC1).players ball0
             ∧ minDistD (mkTeamState "home" wHomeC1).players ball0 < 2))
      ∧ ((updatePossessionStatus (mkTeamState "away" wAwayC1) ball0
            (mkTeamState "home" wHomeC1).players).inPossession = true
          ↔ (minDistD (mkTeamState "away" wAwayC1).players ball0
              < minDistD (mkTeamState "home" wHomeC1).players ball0
             ∧ minDistD (mkTeamState "away" wAwayC1).players ball0 < 2))
      ∧ (2 ≤ minDistD (mkTeamState "home" wHomeC1).players ball0 →
          2 ≤ minDistD (mkTeamState "away" wAwayC1).players ball0 →
          (updatePossessionStatus (mkTeamState "home" wHomeC1) ball0
            (mkTeamState "away" wAwayC1).players).inPossession = false
          ∧ (updatePossessionStatus (mkTeamState "away" wAwayC1) ball0
              (mkTeamState "home" wHomeC1).players).inPossession = false
          ∧ (updatePossessionStatus (mkTeamState "home" wHomeC1) ball0
              (mkTeamState "away" wAwayC1).players).ballCarrier = none
          ∧ (updatePossessionStatus (mkTeamState "away" wAwayC1) ball0
              (mkTeamState "home" wHomeC1).players).ballCarrier = none)) := by
  have hne : minDistD (mkTeamState "home" wHomeC1).players ball0
      ≠ minDistD (mkTeamState "away" wAwayC1).players ball0 := by
    have h1 : minDistD (mkTeamState "home" wHomeC1).players ball0 = 1 := by
      show (mkPlayer "H1" "home" .forward 1 0).distToBall ball0 = 1
      exact mkPlayer_dist_axis_nonneg _ _ _ _ (by norm_num)
    have h5 : minDistD (mkTeamState "away" wAwayC1).players ball0 = 5 := by
      show (mkPlayer "A1" "away" .forward 5 0).distToBall ball0 = 5
      exact mkPlayer_dist_axis_nonneg _ _ _ _ (by norm_num)
    rw [h1, h5]
    norm_num
  exact ⟨by simp [mkTeamState, wHomeC1], by simp [mkTeamState, wAwayC1], hne,
    C1_possession_exclusivity _ _ ball0 (by simp [mkTeamState, wHomeC1])
      (by simp [mkTeamState, wAwayC1]) hne⟩

/-! ## C2: the two closest-non-goalkeeper selections of
update_formation_positions coincide -/

open scoped Classical in
theorem scan_couple (bx byy : ℝ) :
    ∀ (l : List Player) (i : ℕ) (sF : Option (ℕ × ℝ)) (sP : ℕ × Option ℝ),
      (∀ j d, sF = some (j, d) → sP = (j, some d)) →
      (sF = none → sP.2 = none) →
      ((∀ j d, scanNonGK bx byy l i sF = some (j, d) →
          scanPyMin bx byy l i sP = (j, some d))
       ∧ (scanNonGK bx byy l i sF = none → (scanPyMin bx byy l i sP).2 = none)) := by
  intro l
  induction l with
  | nil =>
      intro i sF sP h1 h2
      exact ⟨h1, h2⟩
  | cons p rest ih =>
      intro i sF sP h1 h2
      have hP0 : scanPyMin bx byy (p :: rest) i sP
          = scanPyMin bx byy rest (i + 1)
              (if keyLt (pyKey p bx byy) sP.2 then (i, pyKey p bx byy) else sP) := rfl
      cases sF with
      | none =>
          have hsp2 : sP.2 = none := h2 rfl
          have hF0 : scanNonGK bx byy (p :: rest) i none
              = scanNonGK bx byy rest (i + 1)
                  (if p.role ≠ PlayerRole.goalkeeper then
                    some (i, p.distToBallPos bx byy)
                  else none) := rfl
          rw [hF0, hP0]
          by_cases hgk : p.role ≠ PlayerRole.goalkeeper
          · have hkey : pyKey p bx byy = some (p.distToBallPos bx byy) := by
              unfold pyKey
              rw [if_pos hgk]
            have hcond : keyLt (pyKey p bx byy) sP.2 := by
              rw [hkey, hsp2]
              trivial
            rw [if_pos hgk, if_pos hcond, hkey]
            exact ih (i + 1) _ _
              (fun j d h => by
                injection h with h
                injection h with ha hb
                rw [← ha, ← hb])
              (fun h => by simp at h)
          · have hkey : pyKey p bx byy = none := by
              unfold pyKey
              rw [if_neg hgk]
            have hcond : ¬ keyLt (pyKey p bx byy) sP.2 := by
              rw [hkey]
              exact fun h => h
            rw [if_neg hgk, if_neg hcond]
            exact ih (i + 1) none sP (fun j d h => Option.noConfusion h) (fun _ => hsp2)
      | some s =>
          obtain ⟨bj, bd⟩ := s
          have hsp : sP = (bj, some bd) := h1 bj bd rfl
          have hF0 : scanNonGK bx byy (p :: rest) i (some (bj, bd))
              = scanNonGK bx byy rest (i + 1)
                  (if p.role ≠ PlayerRole.goalkeeper then
                    (if p.distToBallPos bx byy < bd then
                      some (i, p.distToBallPos bx byy)
                    else some (bj, bd))
                  else some (bj, bd)) := rfl
          rw [hF0, hP0, hsp]
          by_cases hgk : p.role ≠ PlayerRole.goalkeeper
          · have hkey : pyKey p bx byy = some (p.distToBallPos bx byy) := by
              unfold pyKey
              rw [if_pos hgk]
            rw [if_pos hgk]
            by_cases hlt : p.distToBallPos bx byy < bd
            · have hcond : keyLt (pyKey p bx byy) ((bj, some bd) : ℕ × Option ℝ).2 := by
                rw [hkey]
                exact hlt
              rw [if_pos hcond, if_pos hlt, hkey]
              exact ih (i + 1) _ _
                (fun j d h => by
                  injection h with h
                  injection h with ha hb
                  rw [← ha, ← hb])
                (fun h => by simp at h)
            · have hcond : ¬ keyLt (pyKey p bx byy) ((bj, some bd) : ℕ × Option ℝ).2 := by
                rw [hkey]
                exact hlt
              rw [if_neg hcond, if_neg hlt]
              exact ih (i + 1) _ _
                (fun j d h => by
                  injection h with h
                  injection h with ha hb
                  rw [← ha, ← hb])
                (fun h => by simp at h)
          · have hkey : pyKey p bx byy = none := by
              unfold pyKey
              rw [if_neg hgk]
            have hcond : ¬ keyLt (pyKey p bx byy) ((bj, some bd) : ℕ × Option ℝ).2 := by
              rw [hkey]
              exact fun h => h
            rw [if_neg hgk, if_neg hcond]
            exact ih (i + 1) _ _
              (fun j d h => by
                injection h with h
                injection h with ha hb
                rw [← ha, ← hb])
              (fun h => by simp at h)

open scoped Classical in
theorem scanNonGK_bound (bx byy : ℝ) :
    ∀ (l : List Player) (i : ℕ) (sF : Option (ℕ × ℝ)),
      (∀ j d, sF = some (j, d) → j < i) →
      ∀ j d, scanNonGK bx byy l i sF = some (j, d) → j < i + l.length := by
  intro l
  induction l with
  | nil =>
      intro i sF hb j d h
      simpa using hb j d h
  | cons p rest ih =>
      intro i sF hb j d h
      have hstep : ∀ s2 : Option (ℕ × ℝ),
          (∀ j2 d2, s2 = some (j2, d2) → j2 < i + 1) →
          scanNonGK bx byy rest (i + 1) s2 = some (j, d) →
          j < i + (p :: rest).length := by
        intro s2 hb2 h2
        have := ih (i + 1) s2 hb2 j d h2
        rw [List.length_cons]
        omega
      cases sF with
      | none =>
          have hF0 : scanNonGK bx byy (p :: rest) i none
              = scanNonGK bx byy rest (i + 1)
                  (if p.role ≠ PlayerRole.goalkeeper then
                    some (i, p.distToBallPos bx byy)
                  else none) := rfl
          rw [hF0] at h
          by_cases hgk : p.role ≠ PlayerRole.goalkeeper
          · rw [if_pos hgk] at h
            exact hstep _ (fun j2 d2 h2 => by
              injection h2 with h2
              injection h2 with ha _
              omega) h
          · rw [if_neg hgk] at h
            exact hstep none (fun j2 d2 h2 => Option.noConfusion h2) h
      | some s =>
          obtain ⟨bj, bd⟩ := s
          have hF0 : scanNonGK bx byy (p :: rest) i (some (bj, bd))
              = scanNonGK bx byy rest (i + 1)
                  (if p.role ≠ PlayerRole.goalkeeper then
                    (if p.distToBallPos bx byy < bd then
                      some (i, p.distToBallPos bx byy)
                    else some (bj, bd))
                  else some (bj, bd)) := rfl
          rw [hF0] at h
          have hbold := hb bj bd rfl
          by_cases hgk : p.role ≠ PlayerRole.goalkeeper
          · rw [if_pos hgk] at h
            refine hstep _ (fun j2 d2 h2 => ?_) h
            by_cases hlt : p.distToBallPos bx byy < bd
            · rw [if_pos hlt] at h2
              injection h2 with h2
              injection h2 with ha _
              omega
            · rw [if_neg hlt] at h2
              injection h2 with h2
              injection h2 with ha _
              omega
          · rw [if_neg hgk] at h
            refine hstep _ (fun j2 d2 h2 => ?_) h
            injection h2 with h2
            injection h2 with ha _
            omega

open scoped Classical in
/-- The first-argmin loop of the retrieval block and the min-by-key skip
check of the main loop select the same roster index. -/
theorem firstArgmin_eq_pyMin (ps : List Player) (bx byy : ℝ) (j : ℕ)
    (h : firstArgminNonGKIdx ps bx byy = some j) :
    pyMinByKeyIdx ps bx byy = some j := by
  cases ps with
  | nil =>
      rw [show firstArgminNonGKIdx ([] : List Player) bx byy = none from rfl] at h
      exact Option.noConfusion h
  | cons p rest =>
      unfold firstArgminNonGKIdx at h
      cases hsc : scanNonGK bx byy (p :: rest) 0 none with
      | none => rw [hsc] at h; exact Option.noConfusion h
      | some s =>
          obtain ⟨j2, d⟩ := s
          rw [hsc, Option.map_some'] at h
          have hj : j2 = j := by injection h
          subst hj
          have hF0 : scanNonGK bx byy (p :: rest) 0 none
              = scanNonGK bx byy rest 1
                  (if p.role ≠ PlayerRole.goalkeeper then
                    some (0, p.distToBallPos bx byy)
                  else none) := rfl
          rw [hF0] at hsc
          have hpm : pyMinByKeyIdx (p :: rest) bx byy
              = some (scanPyMin bx byy rest 1 (0, pyKey p bx byy)).1 := rfl
          rw [hpm]
          by_cases hgk : p.role ≠ PlayerRole.goalkeeper
          · rw [if_pos hgk] at hsc
            have hkey : pyKey p bx byy = some (p.distToBallPos bx byy) := by
              unfold pyKey
              rw [if_pos hgk]
            have hc := (scan_couple bx byy rest 1
              (some (0, p.distToBallPos bx byy)) (0, pyKey p bx byy)
              (fun j3 d3 h3 => by
                injection h3 with h3
                injection h3 with ha hb
                rw [← ha, ← hb, hkey])
              (fun h3 => by simp at h3)).1 j2 d hsc
            rw [hc]
          · rw [if_neg hgk] at hsc
            have hkey : pyKey p bx byy = none := by
              unfold pyKey
              rw [if_neg hgk]
            have hc := (scan_couple bx byy rest 1 none (0, pyKey p bx byy)
              (fun j3 d3 h3 => by simp at h3)
              (fun _ => by rw [hkey])).1 j2 d hsc
            rw [hc]

theorem mapIdxFrom_getQ {α β : Type} (f : ℕ → α → β) :
    ∀ (l : List α) (i n : ℕ),
      (mapIdxFrom f i l).get? n = (l.get? n).map (f (i + n)) := by
  intro l
  induction l with
  | nil => intro i n; simp [mapIdxFrom]
  | cons a rest ih =>
      intro i n
      cases n with
      | zero => simp [mapIdxFrom]
      | succ m =>
          show (mapIdxFrom f (i + 1) rest).get? m = _
          rw [ih (i + 1) m]
          have : i + 1 + m = i + (m + 1) := by omega
          rw [this]
          rfl

theorem cexBallC2_speed : cexBallC2.speed = 3/10 := by
  unfold cexBallC2 Ball.speed
  dsimp only
  rw [show (3/10:ℝ) ^ 2 + (0:ℝ) ^ 2 = (3/10) ^ 2 by ring]
  exact Real.sqrt_sq (by norm_num)

theorem cexOursC2_dist :
    (mkPlayer "H1" "home" PlayerRole.midfielder 46 10).distToBall cexBallC2 = 10 := by
  unfold mkPlayer Player.distToBall cexBallC2
  dsimp only
  rw [show ((46:ℝ) - 46) ^ 2 + ((0:ℝ) - 10) ^ 2 = 10 ^ 2 by ring]
  exact Real.sqrt_sq (by norm_num)

theorem cexOppC2_dist :
    (mkPlayer "A1" "away" PlayerRole.midfielder 0 0).distToBall cexBallC2 = 46 := by
  unfold mkPlayer Player.distToBall cexBallC2
  dsimp only
  rw [show ((46:ℝ) - 0) ^ 2 + ((0:ℝ) - 0) ^ 2 = 46 ^ 2 by ring]
  exact Real.sqrt_sq (by norm_num)

/-- C2 counterexample: ball stuck at (46, 0) moving at 0.3 m/s, own player
10 m away, opponent 46 m away, 10 s since the last trigger.  The code
triggers retrieval (abs(x) = 46 > 45), but the ball is 6.5 m from the
nearest boundary, so the claim's "within 5 m of any boundary edge"
characterization says no retrieval. -/
theorem C2_counterexample :
    (checkBallRetrievalNeeded (mkTeamState "home" cexOursC2) cexBallC2
        cexOppC2 10).1 = true
    ∧ ¬ claimRetrievalSpec (mkTeamState "home" cexOursC2) cexBallC2
        cexOppC2 10 := by
  have hbx : cexBallC2.x = 46 := rfl
  have hby : cexBallC2.y = 0 := rfl
  constructor
  · unfold checkBallRetrievalNeeded mkTeamState cexOursC2 cexOppC2
    norm_num [scanClosest, cexBallC2_speed, cexOursC2_dist, cexOppC2_dist,
      hbx, hby]
  · rintro ⟨_, _, _, hd⟩
    have hmins : minDistD (mkTeamState "home" cexOursC2).players cexBallC2 = 10 :=
      cexOursC2_dist
    rcases hd with ⟨h41, _⟩ | ⟨hnear, _, _⟩
    · rw [hmins] at h41
      norm_num at h41
    · unfold nearBoundary5 at hnear
      rw [hbx, hby] at hnear
      norm_num at hnear

open scoped Classical in
/-- C2 (amended): _check_ball_retrieval_needed returns true exactly when at
least 4 s have elapsed since the last retrieval trigger, the nearest player
overall belongs to this team, ball speed < 1 m/s, and either (nearest
distance > 12 m with near-zero speed) or (abs(ball.x) > 45 m or
abs(ball.y) > 30 m — the code's near-edge test, not "within 5 m of a
boundary" of the 105 x 68 field — with nearest distance > 8 m and speed
< 0.5 m/s).  When it triggers, update_formation_positions retargets exactly
the single closest non-goalkeeper to the ball and gives every other player
its formation-hold target. -/
theorem C2_stuck_ball (ts : TeamState) (ball : Ball) (opp : List Player)
    (currentTime : ℝ) (hp : ts.players ≠ []) (ho : opp ≠ [])
    (hcd : ts.retrievalCooldown = 2) :
    ((checkBallRetrievalNeeded ts ball opp currentTime).1 = true
      ↔ (4 ≤ currentTime - ts.lastRetrievalTime
         ∧ minDistD ts.players ball ≤ minDistD opp ball
         ∧ ball.speed < 1
         ∧ ((12 < minDistD ts.players ball ∧ ball.speed < 1/10)
            ∨ ((45 < |ball.x| ∨ 30 < |ball.y|)
               ∧ 8 < minDistD ts.players ball ∧ ball.speed < 1/2))))
    ∧ (∀ j, firstArgminNonGKIdx ts.players ball.x ball.y = some j →
        (((updateFormationPositions ts ball.x ball.y true).players.get? j).map
            (fun q => (q.targetX, q.targetY)) = some (ball.x, ball.y))
        ∧ ∀ n p, n ≠ j → ts.players.get? n = some p →
            ((updateFormationPositions ts ball.x ball.y true).players.get? n).map
              (fun q => (q.targetX, q.targetY))
            = some (holdFormationTarget ts ball.x ball.y n p)) := by
  constructor
  · obtain ⟨pl, hpl⟩ := scanBoth ball ts.players opp hp ho
    unfold checkBallRetrievalNeeded
    rw [hcd, hpl]
    by_cases h1 : currentTime - ts.lastRetrievalTime < 2 * 2
    · rw [if_pos h1]
      constructor
      · intro hfalse
        simp at hfalse
      · rintro ⟨h4, _⟩
        norm_num at h1
        linarith
    · rw [if_neg h1]
      by_cases h2 : ball.speed > 1
      · rw [if_pos h2]
        constructor
        · intro hfalse
          simp at hfalse
        · rintro ⟨_, _, h3, _⟩
          linarith
      · rw [if_neg h2]
        dsimp only
        by_cases hflag : minDistD ts.players ball ≤ minDistD opp ball
        · rw [if_pos hflag]
          simp only [eq_self_iff_true, if_true]
          rw [min_eq_left hflag]
          by_cases hneed : (minDistD ts.players ball > 12 ∧ ball.speed < 1/10)
              ∨ ((|ball.x| > 45 ∨ |ball.y| > 30)
                 ∧ minDistD ts.players ball > 8 ∧ ball.speed < 1/2)
          · rw [if_pos hneed]
            constructor
            · intro _
              refine ⟨by norm_num at h1; linarith, hflag, ?_, hneed⟩
              rcases hneed with ⟨_, hs⟩ | ⟨_, _, hs⟩ <;> linarith
            · intro _
              rfl
          · rw [if_neg hneed]
            constructor
            · intro hfalse
              simp at hfalse
            · rintro ⟨_, _, _, hd⟩
              exact absurd hd hneed
        · rw [if_neg hflag]
          simp only [Bool.false_eq_true, if_false]
          constructor
          · intro hfalse
            simp at hfalse
          · rintro ⟨_, hf, _⟩
            exact absurd hf hflag
  · intro j hj
    have hsk := firstArgmin_eq_pyMin ts.players ball.x ball.y j hj
    have hjlt : j < ts.players.length := by
      unfold firstArgminNonGKIdx at hj
      cases hsc : scanNonGK ball.x ball.y ts.players 0 none with
      | none => rw [hsc] at hj; exact Option.noConfusion hj
      | some s =>
          obtain ⟨j2, d⟩ := s
          rw [hsc, Option.map_some'] at hj
          have hjj : j2 = j := by injection hj
          subst hjj
          have := scanNonGK_bound ball.x ball.y ts.players 0 none
            (fun _ _ h => Option.noConfusion h) j2 d hsc
          simpa using this
    unfold updateFormationPositions
    rw [if_neg hp]
    dsimp only
    rw [hj, hsk]
    dsimp only
    rw [if_pos (show (true : Bool) = true from rfl)]
    constructor
    · obtain ⟨pj, hpj⟩ : ∃ pj, ts.players.get? j = some pj := by
        rw [List.get?_eq_get hjlt]
        exact ⟨_, rfl⟩
      rw [mapIdxFrom_getQ, mapIdxFrom_getQ, hpj]
      simp only [Option.map_some', Nat.zero_add, if_true, and_self]
      cases lookupA (ts.formation.getPositionsForTeam ts.teamName)
          ((pj.setTarget ball.x ball.y).role.value) with
      | none => simp [Player.setTarget]
      | some rp =>
          dsimp only
          cases rp.get? (countRoleBefore ts.players j
              ((pj.setTarget ball.x ball.y).role.value)) with
          | none => simp [Player.setTarget]
          | some basePos => simp [Player.setTarget]
    · intro n p hnj hnp
      rw [mapIdxFrom_getQ, mapIdxFrom_getQ, hnp]
      simp only [Option.map_some', Nat.zero_add]
      rw [if_neg hnj]
      unfold holdFormationTarget
      have hskipne : ¬ (some j = some n) := fun hand =>
        hnj (Option.some.inj hand).symm
      cases lookupA (ts.formation.getPositionsForTeam ts.teamName)
          (p.role.value) with
      | none => rfl
      | some rp =>
          dsimp only
          cases rp.get? (countRoleBefore ts.players n (p.role.value)) with
          | none => rfl
          | some basePos =>
              dsimp only
              simp only [if_true, and_self, true_and, eq_self_iff_true]
              rw [if_neg hskipne]
              by_cases hgk2 : p.role.value ≠ "goalkeeper"
              · rw [if_pos hgk2, if_pos hgk2]
                rw [if_neg (fun hand => hand.1 trivial)]
                rfl
              · rw [if_neg hgk2, if_neg hgk2]
                rfl

/-- C2 witness: the amended theorem applied to the counterexample fixture
(one own player, one opponent, cooldown 2.0 s). -/
theorem C2_stuck_ball_witness :
    (mkTeamState "home" cexOursC2).players ≠ []
    ∧ cexOppC2 ≠ []
    ∧ (mkTeamState "home" cexOursC2).retrievalCooldown = 2
    ∧ (((checkBallRetrievalNeeded (mkTeamState "home" cexOursC2) cexBallC2
          cexOppC2 10).1 = true
      ↔ (4 ≤ (10:ℝ) - (mkTeamState "home" cexOursC2).lastRetrievalTime
         ∧ minDistD (mkTeamState "home" cexOursC2).players cexBallC2
             ≤ minDistD cexOppC2 cexBallC2
         ∧ cexBallC2.speed < 1
         ∧ ((12 < minDistD (mkTeamState "home" cexOursC2).players cexBallC2
              ∧ cexBallC2.speed < 1/10)
            ∨ ((45 < |cexBallC2.x| ∨ 30 < |cexBallC2.y|)
               ∧ 8 < minDistD (mkTeamState "home" cexOursC2).players cexBallC2
               ∧ cexBallC2.speed < 1/2))))
    ∧ (∀ j, firstArgminNonGKIdx (mkTeamState "home" cexOursC2).players
          cexBallC2.x cexBallC2.y = some j →
        (((updateFormationPositions (mkTeamState "home" cexOursC2) cexBallC2.x
            cexBallC2.y true).players.get? j).map
            (fun q => (q.targetX, q.targetY)) = some (cexBallC2.x, cexBallC2.y))
        ∧ ∀ n p, n ≠ j → (mkTeamState "home" cexOursC2).players.get? n = some p →
            ((updateFormationPositions (mkTeamState "home" cexOursC2) cexBallC2.x
              cexBallC2.y true).players.get? n).map
              (fun q => (q.targetX, q.targetY))
            = some (holdFormationTarget (mkTeamState "home" cexOursC2) cexBallC2.x
                cexBallC2.y n p))) :=
  ⟨by simp [mkTeamState, cexOursC2], by simp [cexOppC2], rfl,
    C2_stuck_ball (mkTeamState "home" cexOursC2) cexBallC2 cexOppC2 10
      (by simp [mkTeamState, cexOursC2]) (by simp [cexOppC2]) rfl⟩

/-! ## Kickoff state machine lemmas (C3) -/

theorem updateKickoffState_preparing (es : EngineState) (dt : ℝ)
    (hs : es.kickoffState = "preparing") :
    updateKickoffState es dt
      = (if es.kickoffTimer + dt ≥ kickoffPreparationTime then
          { es with kickoffState := "ready", kickoffTimer := 0 }
        else { es with kickoffTimer := es.kickoffTimer + dt }) := by
  unfold updateKickoffState
  dsimp only
  rw [if_neg (by rw [hs]; decide), if_pos hs]

theorem updateKickoffState_ready (es : EngineState) (dt : ℝ)
    (hs : es.kickoffState = "ready") :
    updateKickoffState es dt
      = (if es.kickoffTimer + dt ≥ kickoffPassDelay then
          { executeKickoffPass { es with kickoffTimer := es.kickoffTimer + dt } with
              kickoffState := "active", kickoffTimer := 0 }
        else { es with kickoffTimer := es.kickoffTimer + dt }) := by
  unfold updateKickoffState
  dsimp only
  rw [if_neg (by rw [hs]; decide), if_neg (by rw [hs]; decide), if_pos hs]

theorem updateKickoffState_active (es : EngineState) (dt : ℝ)
    (hs : es.kickoffState = "active") :
    updateKickoffState es dt
      = (if es.kickoffTimer + dt ≥ 1 ∨ es.ball.speed > 2 then
          endKickoff { es with kickoffTimer := es.kickoffTimer + dt }
        else { es with kickoffTimer := es.kickoffTimer + dt }) := by
  unfold updateKickoffState
  dsimp only
  rw [if_neg (by rw [hs]; decide), if_neg (by rw [hs]; decide),
    if_neg (by rw [hs]; decide), if_pos hs]

theorem executeKickoffPass_kickers (es : EngineState)
    (hk : es.hasKickers = true) :
    executeKickoffPass es
      = { es with ball := (es.ball.kick
            ((if es.kickoffTeam = "home" then (1:ℝ) else -1) * 4) 1
            (some es.kickerId)) } := by
  unfold executeKickoffPass
  rw [if_neg (by rw [hk]; decide)]

theorem engineFrame_state (es : EngineState) (dt : ℝ) :
    (engineFrame es dt).kickoffState = (updateKickoffState es dt).kickoffState := rfl

theorem engineFrame_timer (es : EngineState) (dt : ℝ) :
    (engineFrame es dt).kickoffTimer = (updateKickoffState es dt).kickoffTimer := rfl

theorem engineFrame_ball (es : EngineState) (dt : ℝ) :
    (engineFrame es dt).ball = (updateKickoffState es dt).ball.update dt stdBounds := rfl

theorem kick_noclamp (b : Ball) (fx fy : ℝ) (kid : Option String)
    (hle : ¬ (Real.sqrt ((b.velocityX + fx / ballMass) ^ 2
        + (b.velocityY + fy / ballMass) ^ 2) > 30)) :
    b.kick fx fy kid
      = { b with velocityX := b.velocityX + fx / ballMass,
                 velocityY := b.velocityY + fy / ballMass,
                 lastTouchedBy := kid, isMoving := true } := by
  unfold Ball.kick
  dsimp only
  rw [if_neg hle]

theorem stillBall_update (b : Ball) (dt : ℝ) (hbx : b.x = 0) (hby : b.y = 0)
    (hvx : b.velocityX = 0) (hvy : b.velocityY = 0) (hmv : b.isMoving = false) :
    b.update dt stdBounds = b := by
  obtain ⟨x, y, vx, vy, mv, ltb⟩ := b
  dsimp only at hbx hby hvx hvy hmv
  subst hbx
  subst hby
  subst hvx
  subst hvy
  subst hmv
  unfold Ball.update Ball.applyFriction Ball.integrate Ball.boundaries
    Ball.speed stdBounds ballRadius
  dsimp only
  rw [if_neg (by norm_num : ¬ (Real.sqrt ((0:ℝ) ^ 2 + (0:ℝ) ^ 2) > 1/10))]
  dsimp only
  rw [if_neg (by norm_num : ¬ ((0:ℝ) + 0 * dt - 11/100 < -105/2)),
    if_neg (by norm_num : ¬ ((0:ℝ) + 0 * dt + 11/100 > 105/2))]
  dsimp only
  rw [if_neg (by norm_num : ¬ ((0:ℝ) + 0 * dt - 11/100 < -34)),
    if_neg (by norm_num : ¬ ((0:ℝ) + 0 * dt + 11/100 > 34))]
  norm_num

/-- C3: starting the kickoff state machine in "preparing" with timer 0 (ball
at rest on the centre spot, kickers designated), for any sequence of positive
tick deltas: the state stays "preparing" until the accumulated time first
reaches the 2.0 s preparation window (tick n1), at which point it becomes
"ready"; it stays "ready" until a further 1.0 s has accumulated (tick n2), at
which point the kickoff pass gives the ball nonzero speed (kicked by the
designated kicker) and the state becomes "active"; and the state stays
"active" until the first tick m at which a further 1.0 s has accumulated or
the ball's speed exceeds 2.0 m/s, at which point it returns to "none". -/
theorem C3_kickoff_progression (d : ℕ → ℝ) (team kid : String)
    (ltb : Option String) (n1 n2 m : ℕ)
    (_hd : ∀ i, 0 < d i)
    (hn1 : kickoffPreparationTime ≤ partialSum d n1)
    (hn1min : ∀ k, k < n1 → partialSum d k < kickoffPreparationTime)
    (hn12 : n1 < n2)
    (hn2 : kickoffPassDelay ≤ partialSum d n2 - partialSum d n1)
    (hn2min : ∀ k, n1 < k → k < n2 →
      partialSum d k - partialSum d n1 < kickoffPassDelay)
    (hm : n2 < m)
    (hEm : activeEndCond d (kickoffStart team kid ltb) n2 m)
    (hmmin : ∀ k, n2 < k → k < m →
      ¬ activeEndCond d (kickoffStart team kid ltb) n2 k) :
    (∀ k, k < n1 →
      (kickoffTraj d (kickoffStart team kid ltb) k).kickoffState = "preparing")
    ∧ (kickoffTraj d (kickoffStart team kid ltb) n1).kickoffState = "ready"
    ∧ (∀ k, n1 ≤ k → k < n2 →
      (kickoffTraj d (kickoffStart team kid ltb) k).kickoffState = "ready")
    ∧ (kickoffTraj d (kickoffStart team kid ltb) n2).kickoffState = "active"
    ∧ 0 < (updateKickoffState (kickoffTraj d (kickoffStart team kid ltb)
        (n2 - 1)) (d (n2 - 1))).ball.speed
    ∧ (updateKickoffState (kickoffTraj d (kickoffStart team kid ltb)
        (n2 - 1)) (d (n2 - 1))).ball.lastTouchedBy = some kid
    ∧ (∀ k, n2 ≤ k → k < m →
      (kickoffTraj d (kickoffStart team kid ltb) k).kickoffState = "active")
    ∧ (kickoffTraj d (kickoffStart team kid ltb) m).kickoffState = "none" := by
  have hstill : ∀ dt : ℝ, (restBall ltb).update dt stdBounds = restBall ltb :=
    fun dt => stillBall_update _ dt rfl rfl rfl rfl rfl
  -- Phase 1: preparing, accumulating the timer, while the total stays < 2.0.
  have phaseA : ∀ k, k < n1 →
      kickoffTraj d (kickoffStart team kid ltb) k
        = ({ kickoffState := "preparing", kickoffTimer := partialSum d k,
             kickoffTeam := team, hasKickers := true, kickerId := kid,
             ball := restBall ltb } : EngineState) := by
    intro k
    induction k with
    | zero => intro _; rfl
    | succ k ih =>
        intro hlt
        have hk : k < n1 := Nat.lt_of_succ_lt hlt
        have h1 : kickoffTraj d (kickoffStart team kid ltb) (k + 1)
            = engineFrame (kickoffTraj d (kickoffStart team kid ltb) k)
                (d k) := rfl
        rw [h1, ih hk]
        unfold engineFrame
        dsimp only
        rw [updateKickoffState_preparing _ _ rfl]
        dsimp only
        have hc : ¬ (partialSum d k + d k ≥ kickoffPreparationTime) := by
          have h2 := hn1min (k + 1) hlt
          have hps : partialSum d (k + 1) = partialSum d k + d k := rfl
          rw [hps] at h2
          exact not_le.mpr h2
        rw [if_neg hc]
        dsimp only
        rw [hstill]
        have hps2 : partialSum d (k + 1) = partialSum d k + d k := rfl
        rw [hps2]
  -- Transition 1: at tick n1 the accumulated timer reaches 2.0: state ready.
  have hn1pos : n1 ≠ 0 := by
    intro h0
    rw [h0] at hn1
    have hps : partialSum d 0 = 0 := rfl
    rw [hps] at hn1
    unfold kickoffPreparationTime at hn1
    linarith
  obtain ⟨k1, hk1⟩ := Nat.exists_eq_succ_of_ne_zero hn1pos
  have hready : kickoffTraj d (kickoffStart team kid ltb) n1
      = ({ kickoffState := "ready", kickoffTimer := 0, kickoffTeam := team,
           hasKickers := true, kickerId := kid,
           ball := restBall ltb } : EngineState) := by
    rw [hk1]
    have h1 : kickoffTraj d (kickoffStart team kid ltb) (k1 + 1)
        = engineFrame (kickoffTraj d (kickoffStart team kid ltb) k1)
            (d k1) := rfl
    rw [h1, phaseA k1 (by omega)]
    unfold engineFrame
    dsimp only
    rw [updateKickoffState_preparing _ _ rfl]
    dsimp only
    have hc : partialSum d k1 + d k1 ≥ kickoffPreparationTime := by
      have h3 := hn1
      have hps : partialSum d (k1 + 1) = partialSum d k1 + d k1 := rfl
      rw [hk1, hps] at h3
      exact h3
    rw [if_pos hc]
    dsimp only
    rw [hstill]
  -- Phase 2: ready, accumulating the timer, while the extra total stays < 1.0.
  have phaseB : ∀ j, n1 + j < n2 →
      kickoffTraj d (kickoffStart team kid ltb) (n1 + j)
        = ({ kickoffState := "ready",
             kickoffTimer := partialSum d (n1 + j) - partialSum d n1,
             kickoffTeam := team, hasKickers := true, kickerId := kid,
             ball := restBall ltb } : EngineState) := by
    intro j
    induction j with
    | zero =>
        intro _
        simp only [Nat.add_zero]
        rw [hready, sub_self]
    | succ j ih =>
        intro hlt
        have hj : n1 + j < n2 := by omega
        have h1 : kickoffTraj d (kickoffStart team kid ltb) (n1 + (j + 1))
            = engineFrame (kickoffTraj d (kickoffStart team kid ltb) (n1 + j))
                (d (n1 + j)) := rfl
        rw [h1, ih hj]
        unfold engineFrame
        dsimp only
        rw [updateKickoffState_ready _ _ rfl]
        dsimp only
        have hc : ¬ (partialSum d (n1 + j) - partialSum d n1 + d (n1 + j)
            ≥ kickoffPassDelay) := by
          have h2 := hn2min (n1 + j + 1) (by omega) (by omega)
          have hps : partialSum d (n1 + j + 1)
              = partialSum d (n1 + j) + d (n1 + j) := rfl
          rw [hps] at h2
          intro hge
          have h4 : partialSum d (n1 + j) - partialSum d n1 + d (n1 + j)
              = partialSum d (n1 + j) + d (n1 + j) - partialSum d n1 := by
            ring
          rw [h4] at hge
          linarith
        rw [if_neg hc]
        dsimp only
        rw [hstill]
        have ht : partialSum d (n1 + j) - partialSum d n1 + d (n1 + j)
            = partialSum d (n1 + (j + 1)) - partialSum d n1 := by
          have hps : partialSum d (n1 + (j + 1))
              = partialSum d (n1 + j) + d (n1 + j) := rfl
          rw [hps]
          ring
        rw [ht]
  -- Transition 2: at tick n2 the kicker passes and the state becomes active.
  have hn2pos : n2 ≠ 0 := by omega
  obtain ⟨k2, hk2⟩ := Nat.exists_eq_succ_of_ne_zero hn2pos
  have htrk2 : kickoffTraj d (kickoffStart team kid ltb) k2
      = ({ kickoffState := "ready",
           kickoffTimer := partialSum d k2 - partialSum d n1,
           kickoffTeam := team, hasKickers := true, kickerId := kid,
           ball := restBall ltb } : EngineState) := by
    obtain ⟨j2, hj2⟩ := Nat.exists_eq_add_of_le (show n1 ≤ k2 by omega)
    rw [hj2]
    exact phaseB j2 (by omega)
  have hmach : updateKickoffState
        (kickoffTraj d (kickoffStart team kid ltb) k2) (d k2)
      = ({ kickoffState := "active", kickoffTimer := 0, kickoffTeam := team,
           hasKickers := true, kickerId := kid,
           ball := ((restBall ltb).kick
             ((if team = "home" then (1:ℝ) else -1) * 4) 1
             (some kid)) } : EngineState) := by
    rw [htrk2, updateKickoffState_ready _ _ rfl]
    dsimp only
    have hc : partialSum d k2 - partialSum d n1 + d k2 ≥ kickoffPassDelay := by
      have h3 := hn2
      have hps : partialSum d (k2 + 1) = partialSum d k2 + d k2 := rfl
      rw [hk2, hps] at h3
      have h4 : partialSum d k2 - partialSum d n1 + d k2
          = partialSum d k2 + d k2 - partialSum d n1 := by ring
      rw [h4]
      linarith
    rw [if_pos hc, executeKickoffPass_kickers _ rfl]
  -- The pass: fixed impulse (±4, 1) on a resting ball, under the 30 m/s cap.
  have hdir : (if team = "home" then (1:ℝ) else -1) = 1
      ∨ (if team = "home" then (1:ℝ) else -1) = -1 := by
    by_cases h : team = "home"
    · left; rw [if_pos h]
    · right; rw [if_neg h]
  have hargval : ((restBall ltb).velocityX
        + ((if team = "home" then (1:ℝ) else -1) * 4) / ballMass) ^ 2
      + ((restBall ltb).velocityY + 1 / ballMass) ^ 2 = 170000 / 1849 := by
    have hb1 : (restBall ltb).velocityX = 0 := rfl
    have hb2 : (restBall ltb).velocityY = 0 := rfl
    rw [hb1, hb2]
    unfold ballMass
    rcases hdir with h | h <;> rw [h] <;> norm_num
  have hnoclamp : ¬ (Real.sqrt (((restBall ltb).velocityX
        + ((if team = "home" then (1:ℝ) else -1) * 4) / ballMass) ^ 2
      + ((restBall ltb).velocityY + 1 / ballMass) ^ 2) > 30) := by
    rw [hargval]
    push_neg
    have h900 : (30:ℝ) = Real.sqrt 900 := by
      rw [show (900:ℝ) = 30 ^ 2 by norm_num,
        Real.sqrt_sq (by norm_num : (0:ℝ) ≤ 30)]
    rw [h900]
    exact Real.sqrt_le_sqrt (by norm_num)
  have hkick : (restBall ltb).kick
        ((if team = "home" then (1:ℝ) else -1) * 4) 1 (some kid)
      = { restBall ltb with
          velocityX := (restBall ltb).velocityX
            + ((if team = "home" then (1:ℝ) else -1) * 4) / ballMass,
          velocityY := (restBall ltb).velocityY + 1 / ballMass,
          lastTouchedBy := some kid, isMoving := true } :=
    kick_noclamp _ _ _ _ hnoclamp
  have hspeed : 0 < ((restBall ltb).kick
      ((if team = "home" then (1:ℝ) else -1) * 4) 1 (some kid)).speed := by
    rw [hkick]
    unfold Ball.speed
    dsimp only
    apply Real.sqrt_pos.mpr
    rw [hargval]
    norm_num
  have hn2m1 : n2 - 1 = k2 := by omega
  have htrn2state :
      (kickoffTraj d (kickoffStart team kid ltb) n2).kickoffState
        = "active" := by
    rw [hk2]
    have h1 : kickoffTraj d (kickoffStart team kid ltb) (k2 + 1)
        = engineFrame (kickoffTraj d (kickoffStart team kid ltb) k2)
            (d k2) := rfl
    rw [h1, engineFrame_state, hmach]
  have htrn2timer :
      (kickoffTraj d (kickoffStart team kid ltb) n2).kickoffTimer = 0 := by
    rw [hk2]
    have h1 : kickoffTraj d (kickoffStart team kid ltb) (k2 + 1)
        = engineFrame (kickoffTraj d (kickoffStart team kid ltb) k2)
            (d k2) := rfl
    rw [h1, engineFrame_timer, hmach]
  -- Phase 3: active, accumulating the timer, until the ending condition.
  have phaseC : ∀ j, n2 + j < m →
      (kickoffTraj d (kickoffStart team kid ltb) (n2 + j)).kickoffState
          = "active"
      ∧ (kickoffTraj d (kickoffStart team kid ltb) (n2 + j)).kickoffTimer
          = partialSum d (n2 + j) - partialSum d n2 := by
    intro j
    induction j with
    | zero =>
        intro _
        constructor
        · simpa using htrn2state
        · simp only [Nat.add_zero]
          rw [sub_self]
          exact htrn2timer
    | succ j ih =>
        intro hlt
        obtain ⟨hs, ht⟩ := ih (by omega)
        have h1 : kickoffTraj d (kickoffStart team kid ltb) (n2 + (j + 1))
            = engineFrame (kickoffTraj d (kickoffStart team kid ltb) (n2 + j))
                (d (n2 + j)) := rfl
        have hc : ¬ ((kickoffTraj d (kickoffStart team kid ltb)
              (n2 + j)).kickoffTimer + d (n2 + j) ≥ 1
            ∨ (kickoffTraj d (kickoffStart team kid ltb)
              (n2 + j)).ball.speed > 2) := by
          intro hor
          apply hmmin (n2 + j + 1) (by omega) (by omega)
          unfold activeEndCond
          rcases hor with h | h
          · left
            have hps : partialSum d (n2 + j + 1)
                = partialSum d (n2 + j) + d (n2 + j) := rfl
            rw [hps]
            rw [ht] at h
            linarith
          · right
            simpa using h
        constructor
        · rw [h1, engineFrame_state, updateKickoffState_active _ _ hs,
            if_neg hc]
          exact hs
        · rw [h1, engineFrame_timer, updateKickoffState_active _ _ hs,
            if_neg hc]
          show (kickoffTraj d (kickoffStart team kid ltb)
              (n2 + j)).kickoffTimer + d (n2 + j)
            = partialSum d (n2 + (j + 1)) - partialSum d n2
          rw [ht]
          have hps : partialSum d (n2 + (j + 1))
              = partialSum d (n2 + j) + d (n2 + j) := rfl
          rw [hps]
          ring
  -- Transition 3: at tick m the ending condition fires and the state is none.
  obtain ⟨mm, hmm⟩ : ∃ mm, m = mm + 1 := ⟨m - 1, by omega⟩
  have hfin : (kickoffTraj d (kickoffStart team kid ltb) m).kickoffState
      = "none" := by
    have hsm : (kickoffTraj d (kickoffStart team kid ltb) mm).kickoffState
        = "active" := by
      obtain ⟨jm, hjm⟩ := Nat.exists_eq_add_of_le (show n2 ≤ mm by omega)
      rw [hjm]
      exact (phaseC jm (by omega)).1
    have htm : (kickoffTraj d (kickoffStart team kid ltb) mm).kickoffTimer
        = partialSum d mm - partialSum d n2 := by
      obtain ⟨jm, hjm⟩ := Nat.exists_eq_add_of_le (show n2 ≤ mm by omega)
      rw [hjm]
      exact (phaseC jm (by omega)).2
    have h1 : kickoffTraj d (kickoffStart team kid ltb) m
        = engineFrame (kickoffTraj d (kickoffStart team kid ltb) mm)
            (d mm) := by
      rw [hmm]
      rfl
    rw [h1, engineFrame_state, updateKickoffState_active _ _ hsm]
    have hcE : (kickoffTraj d (kickoffStart team kid ltb) mm).kickoffTimer
          + d mm ≥ 1
        ∨ (kickoffTraj d (kickoffStart team kid ltb) mm).ball.speed > 2 := by
      have hE := hEm
      unfold activeEndCond at hE
      rcases hE with h | h
      · left
        rw [htm]
        have hps : partialSum d m = partialSum d mm + d mm := by
          rw [hmm]
          rfl
        rw [hps] at h
        linarith
      · right
        have hsub : m - 1 = mm := by omega
        rw [hsub] at h
        exact h
    rw [if_pos hcE]
    rfl
  refine ⟨?_, ?_, ?_, ?_, ?_, ?_, ?_, ?_⟩
  · intro k hk
    rw [phaseA k hk]
  · rw [hready]
  · intro k h1 h2
    obtain ⟨j, rfl⟩ := Nat.exists_eq_add_of_le h1
    rw [phaseB j h2]
  · exact htrn2state
  · rw [hn2m1, hmach]
    exact hspeed
  · rw [hn2m1, hmach]
    rw [hkick]
  · intro k h1 h2
    obtain ⟨j, rfl⟩ := Nat.exists_eq_add_of_le h1
    exact (phaseC j h2).1
  · exact hfin

/-- C3 witness: with 1 s ticks from the home kickoff start the machine is
ready after tick 2, active after tick 3 with the passed ball moving and
credited to the kicker, and back to none after tick 4. -/
theorem C3_kickoff_progression_witness :
    kickoffPreparationTime ≤ partialSum (fun _ : ℕ => (1:ℝ)) 2
    ∧ kickoffPassDelay ≤ partialSum (fun _ : ℕ => (1:ℝ)) 3
        - partialSum (fun _ : ℕ => (1:ℝ)) 2
    ∧ activeEndCond (fun _ : ℕ => (1:ℝ)) (kickoffStart "home" "H10" none) 3 4
    ∧ (kickoffTraj (fun _ : ℕ => (1:ℝ)) (kickoffStart "home" "H10" none)
        2).kickoffState = "ready"
    ∧ (kickoffTraj (fun _ : ℕ => (1:ℝ)) (kickoffStart "home" "H10" none)
        3).kickoffState = "active"
    ∧ 0 < (updateKickoffState (kickoffTraj (fun _ : ℕ => (1:ℝ))
        (kickoffStart "home" "H10" none) (3 - 1))
        ((fun _ : ℕ => (1:ℝ)) (3 - 1))).ball.speed
    ∧ (updateKickoffState (kickoffTraj (fun _ : ℕ => (1:ℝ))
        (kickoffStart "home" "H10" none) (3 - 1))
        ((fun _ : ℕ => (1:ℝ)) (3 - 1))).ball.lastTouchedBy = some "H10"
    ∧ (kickoffTraj (fun _ : ℕ => (1:ℝ)) (kickoffStart "home" "H10" none)
        4).kickoffState = "none" := by
  have e0 : partialSum (fun _ : ℕ => (1:ℝ)) 0 = 0 := rfl
  have e1 : partialSum (fun _ : ℕ => (1:ℝ)) 1 = 0 + 1 := rfl
  have e2 : partialSum (fun _ : ℕ => (1:ℝ)) 2 = 0 + 1 + 1 := rfl
  have e3 : partialSum (fun _ : ℕ => (1:ℝ)) 3 = 0 + 1 + 1 + 1 := rfl
  have e4 : partialSum (fun _ : ℕ => (1:ℝ)) 4 = 0 + 1 + 1 + 1 + 1 := rfl
  have hn1 : kickoffPreparationTime ≤ partialSum (fun _ : ℕ => (1:ℝ)) 2 := by
    rw [e2]
    unfold kickoffPreparationTime
    norm_num
  have hn1min : ∀ k, k < 2 →
      partialSum (fun _ : ℕ => (1:ℝ)) k < kickoffPreparationTime := by
    intro k hk
    interval_cases k
    · rw [e0]
      unfold kickoffPreparationTime
      norm_num
    · rw [e1]
      unfold kickoffPreparationTime
      norm_num
  have hn2 : kickoffPassDelay ≤ partialSum (fun _ : ℕ => (1:ℝ)) 3
      - partialSum (fun _ : ℕ => (1:ℝ)) 2 := by
    rw [e3, e2]
    unfold kickoffPassDelay
    norm_num
  have hn2min : ∀ k, 2 < k → k < 3 →
      partialSum (fun _ : ℕ => (1:ℝ)) k - partialSum (fun _ : ℕ => (1:ℝ)) 2
        < kickoffPassDelay := by
    intro k h1 h2
    exact absurd h1 (by omega)
  have hEm : activeEndCond (fun _ : ℕ => (1:ℝ))
      (kickoffStart "home" "H10" none) 3 4 := by
    unfold activeEndCond
    left
    rw [e4, e3]
    norm_num
  have hmmin : ∀ k, 3 < k → k < 4 →
      ¬ activeEndCond (fun _ : ℕ => (1:ℝ))
        (kickoffStart "home" "H10" none) 3 k := by
    intro k h1 h2
    exact absurd h1 (by omega)
  have hmain := C3_kickoff_progression (fun _ : ℕ => (1:ℝ)) "home" "H10" none
    2 3 4 (fun _ => one_pos) hn1 hn1min (by norm_num) hn2 hn2min
    (by norm_num) hEm hmmin
  exact ⟨hn1, hn2, hEm, hmain.2.1, hmain.2.2.2.1, hmain.2.2.2.2.1,
    hmain.2.2.2.2.2.1, hmain.2.2.2.2.2.2.2⟩

end Soccer
